import Mathlib

/-! One-click deployment service (`src/index.js`)

Shallow embedding of the deployment pipeline of `src/index.js`: the
`POST /api/deploy` handler, `deployApplication`, `getECRAuthToken`,
`getOrCreateECRRepo` and `updateECSService`.

External collaborators (file system, git, the docker command line, the ECR and
ECS clients) are a `World`: for every operation, a function from the calls made
so far and the arguments of the call to either a response or a thrown error.
A run is a function from the events recorded so far to a result and the
extended event list, so that the calls made before a failure stay observable.
-/

namespace OneClickDeploy

/-! ## JavaScript strings and paths -/

/-- Pieces of a character list between occurrences of `sep`, as
`String.prototype.split` with a one-character separator cuts them. -/
def splitChars (sep : Char) : List Char → List (List Char)
  | [] => [[]]
  | c :: cs =>
    if c = sep then [] :: splitChars sep cs
    else
      match splitChars sep cs with
      | [] => [[c]]
      | seg :: segs => (c :: seg) :: segs

/-- JavaScript `s.split(sep)` for a one-character separator. -/
def jsSplit (s : String) (sep : Char) : List String :=
  (splitChars sep s.data).map String.mk

/-- Text a template literal inserts for a value that is a string or `undefined`. -/
def templ : Option String → String
  | some s => s
  | none => "undefined"

/-- JavaScript `v || d` for a value that is a string or `undefined`: the empty
string is falsy. -/
def orDefault (v : Option String) (d : String) : String :=
  match v with
  | some s => if s = "" then d else s
  | none => d

/-- Segments written one after the other with `/` between them. -/
def joinSegments : List (List Char) → List Char
  | [] => []
  | [s] => s
  | s :: rest => s ++ '/' :: joinSegments rest

/-- One step of Node's POSIX `normalizeString`, on the stack of segments kept so
far (last segment first): empty and `.` segments are dropped, `..` removes the
last kept segment (or is kept when the path may climb above its start), any
other segment is kept. -/
def pushSegment (allowAboveRoot : Bool) (stack : List (List Char)) (seg : List Char) :
    List (List Char) :=
  if seg = [] ∨ seg = ['.'] then stack
  else if seg = ['.', '.'] then
    match stack with
    | top :: below =>
      if top = ['.', '.'] then (if allowAboveRoot then seg :: stack else stack) else below
    | [] => if allowAboveRoot then [seg] else []
  else seg :: stack

/-- Node's POSIX `path.normalize` (library code, not part of the repository),
at the level of `/`-separated segments. -/
def pathNormalize (path : List Char) : List Char :=
  if path = [] then ['.']
  else
    let isAbsolute := path.head? = some '/'
    let trailingSeparator := path.getLast? = some '/'
    let kept := ((splitChars '/' path).foldl (pushSegment (!isAbsolute)) []).reverse
    let res := joinSegments kept
    if res = [] then
      if isAbsolute then ['/'] else if trailingSeparator then ['.', '/'] else ['.']
    else
      let res := if trailingSeparator then res ++ ['/'] else res
      if isAbsolute then '/' :: res else res

/-- Node's POSIX `path.join` (library code, not part of the repository): the
non-empty arguments joined with `/`, then normalized. -/
def pathJoin (args : List String) : String :=
  match args.filter (fun a => a ≠ "") with
  | [] => "."
  | parts => String.mk (pathNormalize (joinSegments (parts.map String.data)))

/-- Every `/`-separated segment of the text is an ordinary name: none is empty,
`.` or `..`. -/
def plainSegments (s : String) : Bool :=
  (splitChars '/' s.data).all fun seg => decide (seg ≠ [] ∧ seg ≠ ['.'] ∧ seg ≠ ['.', '.'])

/-! ## Data exchanged with the collaborators -/

/-- A thrown JavaScript error: its `name` and `message`. -/
structure Err where
  name : String
  message : String
deriving DecidableEq, Repr

/-- The error thrown when a property of `undefined` is read. -/
def typeError (property : String) : Err :=
  { name := "TypeError",
    message := "Cannot read properties of undefined (reading \x27" ++ property ++ "\x27)" }

/-- An ECR repository record. -/
structure Repository where
  repositoryName : String
  repositoryUri : String
deriving DecidableEq, Repr

structure PortMapping where
  containerPort : Nat
  hostPort : Nat
  protocol : String
deriving DecidableEq, Repr

/-- The `logConfiguration` of a container: driver and the three `awslogs-*`
options. -/
structure LogConfiguration where
  logDriver : String
  awslogsGroup : String
  awslogsRegion : String
  awslogsStream : String
deriving DecidableEq, Repr

structure ContainerDefinition where
  name : String
  image : String
  essential : Bool
  portMappings : List PortMapping
  logConfiguration : LogConfiguration
deriving DecidableEq, Repr

/-- Input of `RegisterTaskDefinitionCommand`. -/
structure RegisterTaskDefinitionInput where
  family : String
  executionRoleArn : Option String
  taskRoleArn : Option String
  networkMode : String
  containerDefinitions : List ContainerDefinition
  requiresCompatibilities : List String
  cpu : String
  memory : String
deriving DecidableEq, Repr

/-- Input of `UpdateServiceCommand`. -/
structure UpdateServiceInput where
  cluster : String
  service : String
  taskDefinition : String
deriving DecidableEq, Repr

/-- Input of `CreateServiceCommand`. -/
structure CreateServiceInput where
  cluster : String
  serviceName : String
  taskDefinition : String
  desiredCount : Nat
  launchType : String
  subnets : List String
  securityGroups : List String
  assignPublicIp : String
deriving DecidableEq, Repr

/-- The environment variables the program reads. -/
structure Env where
  AWS_REGION : Option String
  ECS_CLUSTER : Option String
  ECS_EXECUTION_ROLE_ARN : Option String
  ECS_TASK_ROLE_ARN : Option String
  ECS_SUBNETS : Option String
  ECS_SECURITY_GROUPS : Option String
deriving DecidableEq, Repr

/-- A call to an external collaborator, with its arguments. -/
inductive Call where
  | mkdirSync (dir : String)
  | gitClone (repoUrl dir : String)
  | gitCheckout (cwd branch : String)
  | execSync (command : String) (cwd : Option String)
  | describeRepositories (repositoryNames : List String)
  | createRepository (repositoryName : String)
  | getAuthorizationToken
  | registerTaskDefinition (input : RegisterTaskDefinitionInput)
  | updateService (input : UpdateServiceInput)
  | createService (input : CreateServiceInput)
deriving DecidableEq, Repr

/-- A call that was made, and the error it threw if it failed. -/
structure Event where
  call : Call
  failure : Option Err
deriving DecidableEq, Repr

/-- The error an answer throws, if it is one. -/
def failureOf : Except Err α → Option Err
  | .ok _ => none
  | .error e => some e

/-- The collaborators. Each operation answers from the calls made so far and
its arguments, with a response or a thrown error. `getAuthorizationToken`
answers with the text `Buffer.from(token, "base64").toString("utf-8")` yields
for `authorizationData[0].authorizationToken`; `registerTaskDefinition` answers
with `taskDefinition.taskDefinitionArn`. -/
structure World where
  mkdirSync : List Call → String → Except Err Unit
  gitClone : List Call → String → String → Except Err Unit
  gitCheckout : List Call → String → String → Except Err Unit
  execSync : List Call → String → Option String → Except Err Unit
  describeRepositories : List Call → List String → Except Err (List Repository)
  createRepository : List Call → String → Except Err Repository
  getAuthorizationToken : List Call → Except Err String
  registerTaskDefinition : List Call → RegisterTaskDefinitionInput → Except Err String
  updateService : List Call → UpdateServiceInput → Except Err Unit
  createService : List Call → CreateServiceInput → Except Err Unit

/-! ## Runs -/

/-- A computation that calls collaborators: from the events so far to a result
(a value or a thrown error) and the events so far extended by its own. -/
def Async (α : Type) : Type := List Event → Except Err α × List Event

namespace Async

/-- Run a computation from the events recorded so far. -/
def run (x : Async α) (events : List Event) : Except Err α × List Event := x events

/-- A value, with no call made. -/
def ret (a : α) : Async α := fun events => (.ok a, events)

/-- Sequencing (`await` then continue): an error of the first part ends the whole,
the events made so far are kept. -/
def andThen (x : Async α) (f : α → Async β) : Async β := fun events =>
  match x events with
  | (.ok a, events1) => f a events1
  | (.error e, events1) => (.error e, events1)

/-- The statement `throw e`. -/
def raise (e : Err) : Async α := fun events => (.error e, events)

/-- The statement `try { x } catch (e) { h e }`. -/
def handle (x : Async α) (h : Err → Async α) : Async α := fun events =>
  match x events with
  | (.ok a, events1) => (.ok a, events1)
  | (.error e, events1) => h e events1

/-- Make one call: ask the world, record the event. -/
def perform (c : Call) (respond : List Call → Except Err α) : Async α := fun events =>
  match respond (events.map Event.call) with
  | .ok a => (.ok a, events ++ [⟨c, none⟩])
  | .error e => (.error e, events ++ [⟨c, some e⟩])

end Async

instance : Monad Async where
  pure := Async.ret
  bind := Async.andThen

instance : MonadExcept Err Async where
  throw := Async.raise
  tryCatch := Async.handle

/-! ## The program -/

/-- The function `getECRAuthToken` (lines 153-158). -/
def getECRAuthToken (w : World) : Async String :=
  Async.perform .getAuthorizationToken w.getAuthorizationToken

/-- The function `getOrCreateECRRepo` (lines 161-178). The result is
`response.repositories[0]`, `undefined` (`none`) when the list is empty, or
`createResponse.repository`. -/
def getOrCreateECRRepo (w : World) (appName : String) : Async (Option Repository) :=
  try
    let response ← Async.perform (.describeRepositories [appName])
      (fun calls => w.describeRepositories calls [appName])
    pure response.head?
  catch error =>
    if error.name = "RepositoryNotFoundException" then do
      let createResponse ← Async.perform (.createRepository appName)
        (fun calls => w.createRepository calls appName)
      pure (some createResponse)
    else
      throw error

/-- The task definition `updateECSService` registers (lines 186-216). -/
def taskDefinitionInput (env : Env) (appName imageUri : String) : RegisterTaskDefinitionInput :=
  { family := appName,
    executionRoleArn := env.ECS_EXECUTION_ROLE_ARN,
    taskRoleArn := env.ECS_TASK_ROLE_ARN,
    networkMode := "awsvpc",
    containerDefinitions := [
      { name := appName,
        image := imageUri,
        essential := true,
        portMappings := [{ containerPort := 3000, hostPort := 3000, protocol := "tcp" }],
        logConfiguration :=
          { logDriver := "awslogs",
            awslogsGroup := "/ecs/" ++ appName,
            awslogsRegion := orDefault env.AWS_REGION "us-east-1",
            awslogsStream := "ecs" } }],
    requiresCompatibilities := ["FARGATE"],
    cpu := "256",
    memory := "512" }

/-- The expression `process.env.NAME.split(",")`: a `TypeError` when the variable is
not set. -/
def envList (v : Option String) : Async (List String) :=
  match v with
  | some s => pure (jsSplit s ',')
  | none => throw (typeError "split")

/-- The function `updateECSService` (lines 181-254). -/
def updateECSService (w : World) (env : Env) (appName imageUri : String) : Async Unit := do
  let clusterName := orDefault env.ECS_CLUSTER "default"
  let registerTaskInput := taskDefinitionInput env appName imageUri
  let taskDefinitionArn ← Async.perform (.registerTaskDefinition registerTaskInput)
    (fun calls => w.registerTaskDefinition calls registerTaskInput)
  try
    let updateInput : UpdateServiceInput :=
      { cluster := clusterName, service := appName, taskDefinition := taskDefinitionArn }
    Async.perform (.updateService updateInput) (fun calls => w.updateService calls updateInput)
  catch error =>
    if error.name = "ServiceNotFoundException" then do
      let subnets ← envList env.ECS_SUBNETS
      let securityGroups ← envList env.ECS_SECURITY_GROUPS
      let createInput : CreateServiceInput :=
        { cluster := clusterName,
          serviceName := appName,
          taskDefinition := taskDefinitionArn,
          desiredCount := 1,
          launchType := "FARGATE",
          subnets := subnets,
          securityGroups := securityGroups,
          assignPublicIp := "ENABLED" }
      Async.perform (.createService createInput) (fun calls => w.createService calls createInput)
    else
      throw error

/-- What `deployApplication` resolves with. -/
structure DeployResult where
  success : Bool
  message : String
deriving DecidableEq, Repr

/-- The command line of the `docker login` call (line 134). -/
def loginCommand (username password ecrDomain : Option String) : String :=
  "docker login -u " ++ templ username ++ " -p " ++ templ password ++ " " ++ templ ecrDomain

/-- Reading `ecrRepo.repositoryUri` (line 128): a `TypeError` when `ecrRepo` is
`undefined`. -/
def repositoryUriOf (ecrRepo : Option Repository) : Async String :=
  match ecrRepo with
  | some repo => pure repo.repositoryUri
  | none => throw (typeError "repositoryUri")

/-- The work directory of a run (line 112); `dirname` is `__dirname`. -/
def workDir (dirname deploymentId : String) : String :=
  pathJoin [dirname, "deployments", deploymentId]

/-- The local image tag of a run (line 122). -/
def imageTag (appName deploymentId : String) : String :=
  appName ++ ":" ++ deploymentId

/-- The function `deployApplication` (lines 109-150); `dirname` is `__dirname`.
The console output is left out. -/
def deployApplication (w : World) (env : Env) (dirname : String)
    (deploymentId repoUrl branch appName : String) : Async DeployResult :=
  try
    -- Step 1: clone the repository
    let workDir := workDir dirname deploymentId
    Async.perform (.mkdirSync workDir) (fun calls => w.mkdirSync calls workDir)
    Async.perform (.gitClone repoUrl workDir) (fun calls => w.gitClone calls repoUrl workDir)
    Async.perform (.gitCheckout workDir branch) (fun calls => w.gitCheckout calls workDir branch)
    -- Step 2: build the Docker image
    let imageTag := imageTag appName deploymentId
    let buildCommand := "docker build -t " ++ imageTag ++ " ."
    Async.perform (.execSync buildCommand (some workDir))
      (fun calls => w.execSync calls buildCommand (some workDir))
    -- Step 3: push to ECR
    let ecrRepo ← getOrCreateECRRepo w appName
    let repositoryUri ← repositoryUriOf ecrRepo
    let ecrUri := repositoryUri ++ ":latest"
    let authData ← getECRAuthToken w
    let credentials := jsSplit authData ':'
    let ecrDomain := (jsSplit repositoryUri '/')[0]?
    let login := loginCommand credentials[0]? credentials[1]? ecrDomain
    Async.perform (.execSync login none) (fun calls => w.execSync calls login none)
    let tagCommand := "docker tag " ++ imageTag ++ " " ++ ecrUri
    Async.perform (.execSync tagCommand none) (fun calls => w.execSync calls tagCommand none)
    let pushCommand := "docker push " ++ ecrUri
    Async.perform (.execSync pushCommand none) (fun calls => w.execSync calls pushCommand none)
    -- Step 4: update the ECS service
    updateECSService w env appName ecrUri
    pure { success := true, message := "Deployment successful" }
  catch error =>
    throw error

/-! ### The four steps of `deployApplication`, each on its own

The body of `deployApplication` cut at its `// Step` comments; the theorems
relate a run of the whole to runs of these. -/

/-- Step 1, fetch (lines 111-118): directory, clone, checkout. -/
def fetchStage (w : World) (repoUrl branch workDir : String) : Async Unit := do
  Async.perform (.mkdirSync workDir) (fun calls => w.mkdirSync calls workDir)
  Async.perform (.gitClone repoUrl workDir) (fun calls => w.gitClone calls repoUrl workDir)
  Async.perform (.gitCheckout workDir branch) (fun calls => w.gitCheckout calls workDir branch)

/-- Step 2, build (lines 120-123). -/
def buildStage (w : World) (imageTag workDir : String) : Async Unit :=
  let buildCommand := "docker build -t " ++ imageTag ++ " ."
  Async.perform (.execSync buildCommand (some workDir))
    (fun calls => w.execSync calls buildCommand (some workDir))

/-- Step 3, publish (lines 125-138); answers with `ecrUri`. -/
def publishStage (w : World) (appName imageTag : String) : Async String := do
  let ecrRepo ← getOrCreateECRRepo w appName
  let repositoryUri ← repositoryUriOf ecrRepo
  let ecrUri := repositoryUri ++ ":latest"
  let authData ← getECRAuthToken w
  let credentials := jsSplit authData ':'
  let ecrDomain := (jsSplit repositoryUri '/')[0]?
  let login := loginCommand credentials[0]? credentials[1]? ecrDomain
  Async.perform (.execSync login none) (fun calls => w.execSync calls login none)
  let tagCommand := "docker tag " ++ imageTag ++ " " ++ ecrUri
  Async.perform (.execSync tagCommand none) (fun calls => w.execSync calls tagCommand none)
  let pushCommand := "docker push " ++ ecrUri
  Async.perform (.execSync pushCommand none) (fun calls => w.execSync calls pushCommand none)
  pure ecrUri

/-- Step 4, rollout (lines 140-142). -/
def rolloutStage (w : World) (env : Env) (appName ecrUri : String) : Async Unit :=
  updateECSService w env appName ecrUri

/-! ### `deployApplication` around the token request

The body of `deployApplication` cut before the token request (line 131) and
after the `docker login` call (line 134). -/

/-- Lines 111-128: everything before the token request; answers with
`ecrRepo.repositoryUri`. -/
def beforeToken (w : World) (dirname deploymentId repoUrl branch appName : String) :
    Async String := do
  fetchStage w repoUrl branch (workDir dirname deploymentId)
  buildStage w (imageTag appName deploymentId) (workDir dirname deploymentId)
  let ecrRepo ← getOrCreateECRRepo w appName
  repositoryUriOf ecrRepo

/-- Lines 136-145: everything after the `docker login` call. -/
def afterLogin (w : World) (env : Env) (appName imageTag repositoryUri : String) :
    Async DeployResult := do
  let ecrUri := repositoryUri ++ ":latest"
  let tagCommand := "docker tag " ++ imageTag ++ " " ++ ecrUri
  Async.perform (.execSync tagCommand none) (fun calls => w.execSync calls tagCommand none)
  let pushCommand := "docker push " ++ ecrUri
  Async.perform (.execSync pushCommand none) (fun calls => w.execSync calls pushCommand none)
  updateECSService w env appName ecrUri
  pure { success := true, message := "Deployment successful" }

/-! ## The trigger boundary -/

/-- The JSON body of `POST /api/deploy`: each field a string or absent. -/
structure DeployRequest where
  repoUrl : Option String
  branch : Option String
  appName : Option String
deriving DecidableEq, Repr

/-- The status and JSON body the handler answers with; `deploymentId` and
`error` are the fields only some answers carry. -/
structure Response where
  status : Nat
  success : Bool
  message : String
  deploymentId : Option String
  error : Option String
deriving DecidableEq, Repr

/-- One invocation of `deployApplication`: its arguments. -/
structure Launch where
  deploymentId : String
  repoUrl : String
  branch : String
  appName : String
deriving DecidableEq, Repr

/-- What a request leaves behind: the response, the invocations of
`deployApplication`, and the events and settlement of the background run. -/
structure Handled where
  response : Response
  launched : List Launch
  events : List Event
  settled : Option (Except Err DeployResult)

/-- The deployment id of line 68: `appName`, a dash, `Date.now()` in decimal. -/
def makeDeploymentId (appName : String) (now : Nat) : String :=
  appName ++ "-" ++ toString now

/-- The 400 answer of lines 61-64. -/
def missingParameters : Handled :=
  { response :=
      { status := 400, success := false,
        message := "Missing required parameters: repoUrl, branch, or appName",
        deploymentId := none, error := none },
    launched := [], events := [], settled := none }

/-- The error line 56 throws when `req.body` is `undefined`. -/
def destructureError : Err :=
  { name := "TypeError",
    message := "Cannot destructure property \x27repoUrl\x27 of \x27req.body\x27 as it is undefined." }

/-- The 500 answer of the `catch` block (lines 86-93). -/
def failedToInitiate (error : Err) : Handled :=
  { response :=
      { status := 500, success := false, message := "Failed to initiate deployment",
        deploymentId := none, error := some error.message },
    launched := [], events := [], settled := none }

/-- The `try` block of the handler (lines 56-85). `body` is `req.body`: `none`
when it is `undefined` (no body was parsed, as Express 5 leaves it; Express 4
with `express.json()` leaves an object without fields), and then the
destructuring of line 56 throws. `now` is the reading of `Date.now()`. The
promise `deployApplication` returns is not awaited: its settlement only reaches
the console. -/
def postDeployTry (w : World) (env : Env) (dirname : String) (now : Nat)
    (body : Option DeployRequest) : Except Err Handled := do
  let request ←
    match body with
    | some request => pure request
    | none => throw destructureError
  match request.repoUrl, request.branch, request.appName with
  | some repoUrl, some branch, some appName =>
    if repoUrl = "" ∨ branch = "" ∨ appName = "" then pure missingParameters
    else
      let deploymentId := makeDeploymentId appName now
      let background := (deployApplication w env dirname deploymentId repoUrl branch appName).run []
      pure
        { response :=
            { status := 202, success := true, message := "Deployment started",
              deploymentId := some deploymentId, error := none },
          launched := [{ deploymentId, repoUrl, branch, appName }],
          events := background.2,
          settled := some background.1 }
  | _, _, _ => pure missingParameters

/-- The handler of `POST /api/deploy` (lines 54-94): the `try` block, and the
`catch` block answering 500 for what the `try` block throws. -/
def postDeploy (w : World) (env : Env) (dirname : String) (now : Nat)
    (body : Option DeployRequest) : Handled :=
  match postDeployTry w env dirname now body with
  | .ok handled => handled
  | .error error => failedToInitiate error

/-! ## Reading the events of a run -/

/-- Place of a call in the sequence mkdir, clone, checkout, docker build,
repository lookup, repository creation, auth token, docker login, docker tag,
docker push, register task definition, update service, create service. A
command line that is none of the four docker commands gets 13. -/
def Call.step : Call → Nat
  | .mkdirSync _ => 0
  | .gitClone _ _ => 1
  | .gitCheckout _ _ => 2
  | .execSync command _ =>
    if "docker build ".data.isPrefixOf command.data then 3
    else if "docker login ".data.isPrefixOf command.data then 7
    else if "docker tag ".data.isPrefixOf command.data then 8
    else if "docker push ".data.isPrefixOf command.data then 9
    else 13
  | .describeRepositories _ => 4
  | .createRepository _ => 5
  | .getAuthorizationToken => 6
  | .registerTaskDefinition _ => 10
  | .updateService _ => 11
  | .createService _ => 12

/-- The two failures the program recovers from: a repository lookup that
throws `RepositoryNotFoundException` and a service update that throws
`ServiceNotFoundException`. -/
def Event.recovered (ev : Event) : Bool :=
  match ev.call, ev.failure with
  | .describeRepositories _, some e => e.name == "RepositoryNotFoundException"
  | .updateService _, some e => e.name == "ServiceNotFoundException"
  | _, _ => false

/-- A failed call the program does not recover from. -/
def Event.fatal (ev : Event) : Bool :=
  ev.failure.isSome && !ev.recovered

/-- Number of `UpdateServiceCommand` calls among the events. -/
def updateServiceCalls (events : List Event) : Nat :=
  (events.filter fun ev => match ev.call with | .updateService _ => true | _ => false).length

/-- Number of `CreateServiceCommand` calls among the events. -/
def createServiceCalls (events : List Event) : Nat :=
  (events.filter fun ev => match ev.call with | .createService _ => true | _ => false).length

/-- The events of a computation keep to the sequence between the places `lo`
and `hi` and stop at the first failure that is not recovered from: from any
events so far, the places of the new calls increase strictly and lie in
`[lo, hi)`, no call but the last fails fatally, and when the last does, its
error is the result. -/
def Orderly (lo hi : Nat) (x : Async α) : Prop :=
  ∀ events, ∃ new, (x.run events).2 = events ++ new ∧
    (new.map fun ev => ev.call.step).Pairwise (· < ·) ∧
    (∀ ev ∈ new, lo ≤ ev.call.step ∧ ev.call.step < hi) ∧
    (∀ ev ∈ new.dropLast, ev.fatal = false) ∧
    (∀ ev, new.getLast? = some ev → ev.fatal = true →
      ∃ e, ev.failure = some e ∧ (x.run events).1 = .error e)

/-! ## Concrete worlds -/

/-- Every operation succeeds; each looked-up repository and the service exist,
the registry token decodes to `AWS:secret`. -/
def calmWorld : World :=
  { mkdirSync := fun _ _ => .ok (),
    gitClone := fun _ _ _ => .ok (),
    gitCheckout := fun _ _ _ => .ok (),
    execSync := fun _ _ _ => .ok (),
    describeRepositories := fun _ names =>
      .ok (names.map fun n => { repositoryName := n, repositoryUri := "123.dkr.ecr.aws/" ++ n }),
    createRepository := fun _ n =>
      .ok { repositoryName := n, repositoryUri := "123.dkr.ecr.aws/" ++ n },
    getAuthorizationToken := fun _ => .ok "AWS:secret",
    registerTaskDefinition := fun _ input => .ok ("arn:task/" ++ input.family ++ ":7"),
    updateService := fun _ _ => .ok (),
    createService := fun _ _ => .ok () }

/-- As `calmWorld`, but the branch cannot be checked out. -/
def noBranchWorld : World :=
  { calmWorld with
    gitCheckout := fun _ _ _ => .error { name := "GitError", message := "branch not found" } }

/-- As `calmWorld`, but no repository exists yet. -/
def noRepositoryWorld : World :=
  { calmWorld with
    describeRepositories := fun _ _ =>
      .error { name := "RepositoryNotFoundException", message := "no such repository" } }

/-- As `calmWorld`, but the service does not exist yet. -/
def noServiceWorld : World :=
  { calmWorld with
    updateService := fun _ _ =>
      .error { name := "ServiceNotFoundException", message := "no such service" } }

/-- As `calmWorld`, but the registry token decodes to a text without a colon. -/
def oddTokenWorld : World :=
  { calmWorld with getAuthorizationToken := fun _ => .ok "nocolon" }

/-- No environment variable is set. -/
def bareEnv : Env :=
  { AWS_REGION := none, ECS_CLUSTER := none, ECS_EXECUTION_ROLE_ARN := none,
    ECS_TASK_ROLE_ARN := none, ECS_SUBNETS := none, ECS_SECURITY_GROUPS := none }

/-- Cluster, subnets and security groups are set. -/
def fleetEnv : Env :=
  { bareEnv with
    ECS_CLUSTER := some "prod", ECS_SUBNETS := some "subnet-a,subnet-b",
    ECS_SECURITY_GROUPS := some "sg-1" }

/-! ## Running computations -/

theorem Async.run_pure (a : α) (events : List Event) :
    (pure a : Async α).run events = (.ok a, events) := rfl

theorem Async.run_throw (e : Err) (events : List Event) :
    (throw e : Async α).run events = (.error e, events) := rfl

theorem Async.run_bind (x : Async α) (f : α → Async β) (events : List Event) :
    (x >>= f).run events =
      match x.run events with
      | (.ok a, events1) => (f a).run events1
      | (.error e, events1) => (.error e, events1) := rfl

theorem Async.run_tryCatch (x : Async α) (h : Err → Async α) (events : List Event) :
    (tryCatch x h).run events =
      match x.run events with
      | (.ok a, events1) => (.ok a, events1)
      | (.error e, events1) => (h e).run events1 := rfl

theorem Async.run_perform (c : Call) (respond : List Call → Except Err α) (events : List Event) :
    (Async.perform c respond).run events =
      match respond (events.map Event.call) with
      | .ok a => (.ok a, events ++ [⟨c, none⟩])
      | .error e => (.error e, events ++ [⟨c, some e⟩]) := rfl

theorem Async.run_bind_ok {x : Async α} {f : α → Async β} {events events1 : List Event} {a : α}
    (h : x.run events = (.ok a, events1)) : (x >>= f).run events = (f a).run events1 := by
  rw [Async.run_bind, h]

theorem Async.run_bind_error {x : Async α} {f : α → Async β} {events events1 : List Event}
    {e : Err} (h : x.run events = (.error e, events1)) :
    (x >>= f).run events = (.error e, events1) := by
  rw [Async.run_bind, h]

/-- A sequence that ends well: its first part ended well, and so did the rest. -/
theorem Async.run_bind_ok_inv {x : Async α} {f : α → Async β} {events events2 : List Event}
    {b : β} (h : (x >>= f).run events = (.ok b, events2)) :
    ∃ a events1, x.run events = (.ok a, events1) ∧ (f a).run events1 = (.ok b, events2) := by
  rw [Async.run_bind] at h
  rcases hx : x.run events with ⟨r, events1⟩
  rw [hx] at h
  cases r with
  | ok a => exact ⟨a, events1, rfl, h⟩
  | error e => simp at h

theorem Async.run_perform_ok_inv {c : Call} {respond : List Call → Except Err α}
    {events events1 : List Event} {a : α}
    (h : (Async.perform c respond).run events = (.ok a, events1)) :
    respond (events.map Event.call) = .ok a ∧ events1 = events ++ [⟨c, none⟩] := by
  rw [Async.run_perform] at h
  cases hr : respond (events.map Event.call) with
  | ok a1 => rw [hr] at h; simp at h; exact ⟨by rw [h.1], h.2.symm⟩
  | error e => rw [hr] at h; simp at h

theorem Async.bind_assoc (x : Async α) (f : α → Async β) (g : β → Async γ) :
    x >>= f >>= g = x >>= fun a => f a >>= g := by
  funext events
  show ((x >>= f >>= g).run events) = ((x >>= fun a => f a >>= g).run events)
  simp only [Async.run_bind]
  rcases x.run events with ⟨r, events1⟩
  cases r <;> rfl

theorem Async.pure_bind (a : α) (f : α → Async β) : pure a >>= f = f a := rfl

theorem Orderly.pure_run (lo hi : Nat) (a : α) : Orderly lo hi (pure a : Async α) := by
  intro events
  exact ⟨[], by simp [Async.run_pure], by simp, by simp, by simp, by simp⟩

theorem Orderly.throw_run (lo hi : Nat) (e : Err) : Orderly lo hi (throw e : Async α) := by
  intro events
  exact ⟨[], by simp [Async.run_throw], by simp, by simp, by simp, by simp⟩

theorem Orderly.perform_run {lo hi : Nat} {c : Call} (respond : List Call → Except Err α)
    (h1 : lo ≤ c.step) (h2 : c.step < hi) : Orderly lo hi (Async.perform c respond) := by
  intro events
  rw [Async.run_perform]
  cases respond (events.map Event.call) with
  | ok a =>
    refine ⟨[⟨c, none⟩], rfl, by simp, by simp [h1, h2], by simp, ?_⟩
    intro ev hev hf
    simp at hev
    subst hev
    simp [Event.fatal] at hf
  | error e =>
    refine ⟨[⟨c, some e⟩], rfl, by simp, by simp [h1, h2], by simp, ?_⟩
    intro ev hev _
    simp at hev
    subst hev
    exact ⟨e, rfl, rfl⟩

/-- When a computation ends well, none of its calls failed fatally. -/
theorem no_fatal_of_ok {new : List Event} {r : Except Err α} {a : α} (hr : r = .ok a)
    (h4 : ∀ ev ∈ new.dropLast, ev.fatal = false)
    (h5 : ∀ ev, new.getLast? = some ev → ev.fatal = true → ∃ e, ev.failure = some e ∧ r = .error e) :
    ∀ ev ∈ new, ev.fatal = false := by
  intro ev hev
  cases hl : new.getLast? with
  | none => rw [List.getLast?_eq_none_iff] at hl; subst hl; simp at hev
  | some last =>
    have hsplit := List.dropLast_append_getLast? last (by rw [hl]; rfl)
    rw [← hsplit] at hev
    rcases List.mem_append.mp hev with hmem | hmem
    · exact h4 ev hmem
    · simp at hmem
      subst hmem
      cases hfat : ev.fatal with
      | false => rfl
      | true =>
        obtain ⟨e, _, he⟩ := h5 ev hl hfat
        rw [hr] at he
        cases he

theorem Orderly.bind_run {lo m hi : Nat} {x : Async α} {f : α → Async β}
    (hx : Orderly lo m x) (hf : ∀ a, Orderly m hi (f a)) (hlm : lo ≤ m) (hmh : m ≤ hi) :
    Orderly lo hi (x >>= f) := by
  intro events
  obtain ⟨n1, h1, hp1, hr1, hd1, hl1⟩ := hx events
  rcases hrun : x.run events with ⟨r, events1⟩
  rw [hrun] at h1 hl1
  simp only at h1 hl1
  subst h1
  cases r with
  | error e =>
    rw [Async.run_bind_error hrun]
    refine ⟨n1, rfl, hp1, fun ev hev => ⟨(hr1 ev hev).1, by have := (hr1 ev hev).2; omega⟩, hd1, ?_⟩
    intro ev hev hfat
    obtain ⟨e1, he1, he2⟩ := hl1 ev hev hfat
    cases he2
    exact ⟨e, he1, rfl⟩
  | ok a =>
    rw [Async.run_bind_ok hrun]
    obtain ⟨n2, h2, hp2, hr2, hd2, hl2⟩ := hf a (events ++ n1)
    have hnf := no_fatal_of_ok rfl hd1 hl1
    refine ⟨n1 ++ n2, by rw [h2, List.append_assoc], ?_, ?_, ?_, ?_⟩
    · rw [List.map_append, List.pairwise_append]
      refine ⟨hp1, hp2, ?_⟩
      intro s1 hs1 s2 hs2
      obtain ⟨e1, he1, rfl⟩ := List.mem_map.mp hs1
      obtain ⟨e2, he2, rfl⟩ := List.mem_map.mp hs2
      have := (hr1 e1 he1).2
      have := (hr2 e2 he2).1
      show e1.call.step < e2.call.step
      omega
    · intro ev hev
      rcases List.mem_append.mp hev with hmem | hmem
      · exact ⟨(hr1 ev hmem).1, by have := (hr1 ev hmem).2; omega⟩
      · exact ⟨by have := (hr2 ev hmem).1; omega, (hr2 ev hmem).2⟩
    · intro ev hev
      by_cases hn2 : n2 = []
      · subst hn2
        rw [List.append_nil] at hev
        exact hnf ev (List.mem_of_mem_dropLast hev)
      · rw [List.dropLast_append_of_ne_nil _ hn2] at hev
        rcases List.mem_append.mp hev with hmem | hmem
        · exact hnf ev hmem
        · exact hd2 ev hmem
    · intro ev hev hfat
      by_cases hn2 : n2 = []
      · subst hn2
        rw [List.append_nil] at hev
        have := hnf ev (List.mem_of_mem_getLast? (by rw [hev]; rfl))
        rw [this] at hfat
        cases hfat
      · rw [List.getLast?_append_of_ne_nil _ hn2] at hev
        exact hl2 ev hev hfat

theorem Orderly.rethrow_run {lo hi : Nat} {x : Async α} (hx : Orderly lo hi x) :
    Orderly lo hi (tryCatch x fun e => throw e) := by
  intro events
  have heq : (tryCatch x fun e => throw e).run events = x.run events := by
    rw [Async.run_tryCatch]
    rcases x.run events with ⟨r, events1⟩
    cases r <;> rfl
  rw [heq]
  exact hx events
/-! ## The two gateways, case by case -/

theorem getOrCreateECRRepo_run (w : World) (name : String) (events : List Event) :
    (getOrCreateECRRepo w name).run events =
      match w.describeRepositories (events.map Event.call) [name] with
      | .ok repos => (.ok repos.head?, events ++ [⟨.describeRepositories [name], none⟩])
      | .error e =>
        if e.name = "RepositoryNotFoundException" then
          match w.createRepository (events.map Event.call ++ [.describeRepositories [name]]) name with
          | .ok repo =>
            (.ok (some repo),
              events ++ [⟨.describeRepositories [name], some e⟩, ⟨.createRepository name, none⟩])
          | .error e2 =>
            (.error e2,
              events ++ [⟨.describeRepositories [name], some e⟩, ⟨.createRepository name, some e2⟩])
        else (.error e, events ++ [⟨.describeRepositories [name], some e⟩]) := by
  cases h : w.describeRepositories (events.map Event.call) [name] with
  | ok repos =>
    simp [getOrCreateECRRepo, Async.run_tryCatch, Async.run_bind, Async.run_perform,
      Async.run_pure, h]
  | error e =>
    by_cases hn : e.name = "RepositoryNotFoundException"
    · cases h2 : w.createRepository (events.map Event.call ++ [.describeRepositories [name]]) name <;>
        simp [getOrCreateECRRepo, Async.run_tryCatch, Async.run_bind, Async.run_perform,
          Async.run_pure, h, hn, h2]
    · simp [getOrCreateECRRepo, Async.run_tryCatch, Async.run_bind, Async.run_perform,
        Async.run_pure, Async.run_throw, h, hn]

theorem updateECSService_run (w : World) (env : Env) (appName imageUri : String)
    (events : List Event) :
    (updateECSService w env appName imageUri).run events =
      let register := Call.registerTaskDefinition (taskDefinitionInput env appName imageUri)
      match w.registerTaskDefinition (events.map Event.call)
          (taskDefinitionInput env appName imageUri) with
      | .error e => (.error e, events ++ [⟨register, some e⟩])
      | .ok arn =>
        let update := Call.updateService
          { cluster := orDefault env.ECS_CLUSTER "default", service := appName,
            taskDefinition := arn }
        match w.updateService (events.map Event.call ++ [register])
            { cluster := orDefault env.ECS_CLUSTER "default", service := appName,
              taskDefinition := arn } with
        | .ok _ => (.ok (), events ++ [⟨register, none⟩, ⟨update, none⟩])
        | .error e =>
          if e.name = "ServiceNotFoundException" then
            match env.ECS_SUBNETS, env.ECS_SECURITY_GROUPS with
            | some subnets, some groups =>
              let input : CreateServiceInput :=
                { cluster := orDefault env.ECS_CLUSTER "default", serviceName := appName,
                  taskDefinition := arn, desiredCount := 1, launchType := "FARGATE",
                  subnets := jsSplit subnets ',', securityGroups := jsSplit groups ',',
                  assignPublicIp := "ENABLED" }
              match w.createService (events.map Event.call ++ [register, update]) input with
              | .ok _ =>
                (.ok (),
                  events ++ [⟨register, none⟩, ⟨update, some e⟩, ⟨.createService input, none⟩])
              | .error e2 =>
                (.error e2,
                  events ++ [⟨register, none⟩, ⟨update, some e⟩, ⟨.createService input, some e2⟩])
            | _, _ => (.error (typeError "split"), events ++ [⟨register, none⟩, ⟨update, some e⟩])
          else (.error e, events ++ [⟨register, none⟩, ⟨update, some e⟩]) := by
  cases h : w.registerTaskDefinition (events.map Event.call)
      (taskDefinitionInput env appName imageUri) with
  | error e =>
    simp [updateECSService, Async.run_bind, Async.run_perform, h]
  | ok arn =>
    cases h2 : w.updateService
        (events.map Event.call ++ [.registerTaskDefinition (taskDefinitionInput env appName imageUri)])
        { cluster := orDefault env.ECS_CLUSTER "default", service := appName,
          taskDefinition := arn } with
    | ok u =>
      simp [updateECSService, Async.run_bind, Async.run_perform, Async.run_tryCatch, h, h2]
    | error e =>
      by_cases hn : e.name = "ServiceNotFoundException"
      · cases hs : env.ECS_SUBNETS with
        | none =>
          simp [updateECSService, envList, Async.run_bind, Async.run_perform, Async.run_tryCatch,
            Async.run_throw, h, h2, hn, hs]
        | some subnets =>
          cases hg : env.ECS_SECURITY_GROUPS with
          | none =>
            simp [updateECSService, envList, Async.run_bind, Async.run_perform,
              Async.run_tryCatch, Async.run_throw, Async.run_pure, h, h2, hn, hs, hg]
          | some groups =>
            cases h3 : w.createService
                (events.map Event.call ++
                  [.registerTaskDefinition (taskDefinitionInput env appName imageUri),
                    .updateService
                      { cluster := orDefault env.ECS_CLUSTER "default", service := appName,
                        taskDefinition := arn }])
                { cluster := orDefault env.ECS_CLUSTER "default", serviceName := appName,
                  taskDefinition := arn, desiredCount := 1, launchType := "FARGATE",
                  subnets := jsSplit subnets ',', securityGroups := jsSplit groups ',',
                  assignPublicIp := "ENABLED" } <;>
              simp [updateECSService, envList, Async.run_bind, Async.run_perform,
                Async.run_tryCatch, Async.run_throw, Async.run_pure, h, h2, hn, hs, hg, h3]
      · simp [updateECSService, Async.run_bind, Async.run_perform, Async.run_tryCatch,
          Async.run_throw, h, h2, hn]
theorem Orderly.of_getOrCreateECRRepo (w : World) (name : String) :
    Orderly 4 6 (getOrCreateECRRepo w name) := by
  intro events
  rw [getOrCreateECRRepo_run]
  cases w.describeRepositories (events.map Event.call) [name] with
  | ok repos =>
    exact ⟨[⟨.describeRepositories [name], none⟩], rfl, by simp, by simp [Call.step], by simp,
      by simp [Event.fatal]⟩
  | error e =>
    by_cases hn : e.name = "RepositoryNotFoundException"
    · simp only [hn, if_true]
      cases w.createRepository (events.map Event.call ++ [.describeRepositories [name]]) name with
      | ok repo =>
        exact ⟨[⟨.describeRepositories [name], some e⟩, ⟨.createRepository name, none⟩], rfl,
          by simp [Call.step], by simp [Call.step], by simp [Event.fatal, Event.recovered, hn],
          by simp [Event.fatal]⟩
      | error e2 =>
        exact ⟨[⟨.describeRepositories [name], some e⟩, ⟨.createRepository name, some e2⟩], rfl,
          by simp [Call.step], by simp [Call.step], by simp [Event.fatal, Event.recovered, hn],
          by simp [Event.fatal]⟩
    · simp only [hn, if_false]
      exact ⟨[⟨.describeRepositories [name], some e⟩], rfl, by simp, by simp [Call.step], by simp,
        by simp [Event.fatal]⟩

theorem Orderly.of_updateECSService (w : World) (env : Env) (appName imageUri : String) :
    Orderly 10 13 (updateECSService w env appName imageUri) := by
  intro events
  rw [updateECSService_run]
  simp only
  cases w.registerTaskDefinition (events.map Event.call)
      (taskDefinitionInput env appName imageUri) with
  | error e =>
    exact ⟨[⟨_, some e⟩], rfl, by simp, by simp [Call.step], by simp, by simp [Event.fatal]⟩
  | ok arn =>
    simp only
    cases w.updateService
        (events.map Event.call ++ [.registerTaskDefinition (taskDefinitionInput env appName imageUri)])
        { cluster := orDefault env.ECS_CLUSTER "default", service := appName,
          taskDefinition := arn } with
    | ok u =>
      exact ⟨[⟨_, none⟩, ⟨_, none⟩], rfl, by simp [Call.step], by simp [Call.step],
        by simp [Event.fatal], by simp [Event.fatal]⟩
    | error e =>
      by_cases hn : e.name = "ServiceNotFoundException"
      · simp only [hn, if_true]
        cases env.ECS_SUBNETS with
        | none =>
          exact ⟨[⟨_, none⟩, ⟨_, some e⟩], rfl, by simp [Call.step], by simp [Call.step],
            by simp [Event.fatal], by simp [Event.fatal, Event.recovered, hn]⟩
        | some subnets =>
          cases env.ECS_SECURITY_GROUPS with
          | none =>
            exact ⟨[⟨_, none⟩, ⟨_, some e⟩], rfl, by simp [Call.step], by simp [Call.step],
              by simp [Event.fatal], by simp [Event.fatal, Event.recovered, hn]⟩
          | some groups =>
            simp only
            cases w.createService
                (events.map Event.call ++
                  [.registerTaskDefinition (taskDefinitionInput env appName imageUri),
                    .updateService
                      { cluster := orDefault env.ECS_CLUSTER "default", service := appName,
                        taskDefinition := arn }])
                { cluster := orDefault env.ECS_CLUSTER "default", serviceName := appName,
                  taskDefinition := arn, desiredCount := 1, launchType := "FARGATE",
                  subnets := jsSplit subnets ',', securityGroups := jsSplit groups ',',
                  assignPublicIp := "ENABLED" } with
            | ok u =>
              exact ⟨[⟨_, none⟩, ⟨_, some e⟩, ⟨_, none⟩], rfl, by simp [Call.step],
                by simp [Call.step], by simp [Event.fatal, Event.recovered, hn],
                by simp [Event.fatal]⟩
            | error e2 =>
              exact ⟨[⟨_, none⟩, ⟨_, some e⟩, ⟨_, some e2⟩], rfl, by simp [Call.step],
                by simp [Call.step], by simp [Event.fatal, Event.recovered, hn],
                by simp [Event.fatal]⟩
      · simp only [hn, if_false]
        exact ⟨[⟨_, none⟩, ⟨_, some e⟩], rfl, by simp [Call.step], by simp [Call.step],
          by simp [Event.fatal], by simp [Event.fatal]⟩

theorem step_build (x : String) (cwd : Option String) :
    (Call.execSync ("docker build -t " ++ x) cwd).step = 3 := by
  simp [Call.step, String.data_append]

theorem step_login (u p d : Option String) (cwd : Option String) :
    (Call.execSync (loginCommand u p d) cwd).step = 7 := by
  simp [Call.step, loginCommand, String.data_append]

theorem step_tag (x : String) (cwd : Option String) :
    (Call.execSync ("docker tag " ++ x) cwd).step = 8 := by
  simp [Call.step, String.data_append]

theorem step_push (x : String) (cwd : Option String) :
    (Call.execSync ("docker push " ++ x) cwd).step = 9 := by
  simp [Call.step, String.data_append]

theorem Orderly.of_repositoryUriOf (lo hi : Nat) (ecrRepo : Option Repository) :
    Orderly lo hi (repositoryUriOf ecrRepo) := by
  cases ecrRepo with
  | none => exact Orderly.throw_run _ _ _
  | some repo => exact Orderly.pure_run _ _ _

theorem Orderly.of_deployApplication (w : World) (env : Env)
    (dirname deploymentId repoUrl branch appName : String) :
    Orderly 0 13 (deployApplication w env dirname deploymentId repoUrl branch appName) := by
  unfold deployApplication
  refine Orderly.rethrow_run ?_
  refine Orderly.bind_run (m := 1) (Orderly.perform_run _ (by simp [Call.step]) (by simp [Call.step]))
    (fun _ => ?_) (by omega) (by omega)
  refine Orderly.bind_run (m := 2) (Orderly.perform_run _ (by simp [Call.step]) (by simp [Call.step]))
    (fun _ => ?_) (by omega) (by omega)
  refine Orderly.bind_run (m := 3) (Orderly.perform_run _ (by simp [Call.step]) (by simp [Call.step]))
    (fun _ => ?_) (by omega) (by omega)
  refine Orderly.bind_run (m := 4)
    (Orderly.perform_run _ (by simp [String.append_assoc, step_build])
      (by simp [String.append_assoc, step_build]))
    (fun _ => ?_) (by omega) (by omega)
  refine Orderly.bind_run (m := 6) (Orderly.of_getOrCreateECRRepo w appName)
    (fun ecrRepo => ?_) (by omega) (by omega)
  refine Orderly.bind_run (m := 6) (Orderly.of_repositoryUriOf 6 6 ecrRepo) (fun repositoryUri => ?_)
    (by omega) (by omega)
  refine Orderly.bind_run (m := 7)
    (Orderly.perform_run _ (by simp [Call.step]) (by simp [Call.step]))
    (fun authData => ?_) (by omega) (by omega)
  refine Orderly.bind_run (m := 8)
    (Orderly.perform_run _ (by simp [step_login]) (by simp [step_login]))
    (fun _ => ?_) (by omega) (by omega)
  refine Orderly.bind_run (m := 9)
    (Orderly.perform_run _ (by simp [String.append_assoc, step_tag])
      (by simp [String.append_assoc, step_tag]))
    (fun _ => ?_) (by omega) (by omega)
  refine Orderly.bind_run (m := 10)
    (Orderly.perform_run _ (by simp [step_push]) (by simp [step_push]))
    (fun _ => ?_) (by omega) (by omega)
  exact Orderly.bind_run (m := 13) (Orderly.of_updateECSService w env appName _)
    (fun _ => Orderly.pure_run _ _ _) (by omega) (by omega)
/-! ## The pipeline as its four steps -/

theorem deployApplication_eq_stages (w : World) (env : Env)
    (dirname deploymentId repoUrl branch appName : String) :
    deployApplication w env dirname deploymentId repoUrl branch appName =
      tryCatch
        (do
          fetchStage w repoUrl branch (workDir dirname deploymentId)
          buildStage w (imageTag appName deploymentId) (workDir dirname deploymentId)
          let ecrUri ← publishStage w appName (imageTag appName deploymentId)
          rolloutStage w env appName ecrUri
          pure { success := true, message := "Deployment successful" })
        (fun error => throw error) := by
  simp only [deployApplication, fetchStage, buildStage, publishStage, rolloutStage,
    Async.bind_assoc, Async.pure_bind]

theorem Async.run_rethrow (x : Async α) (events : List Event) :
    (tryCatch x fun e => throw e).run events = x.run events := by
  rw [Async.run_tryCatch]
  rcases x.run events with ⟨r, events1⟩
  cases r <;> rfl

/-! ## Requests at the trigger boundary -/

/-- C1 (amended): a request whose parsed body `req.body` is an object in which
`repoUrl`, `branch` or `appName` is absent or the empty string is answered with
status 400, `success = false` and the "Missing required parameters" message.
A request whose `req.body` is `undefined` (no body was parsed) makes line 56
throw and is answered with status 500, `success = false`, the message "Failed
to initiate deployment" and the text of the error. In both cases
`deployApplication` is not invoked and no external operation is performed. -/
theorem postDeploy_missing_parameter (w : World) (env : Env) (dirname : String) (now : Nat)
    (body : Option DeployRequest)
    (h : ∀ request, body = some request →
      request.repoUrl = none ∨ request.repoUrl = some "" ∨ request.branch = none ∨
        request.branch = some "" ∨ request.appName = none ∨ request.appName = some "") :
    (postDeploy w env dirname now body).launched = [] ∧
    (postDeploy w env dirname now body).events = [] ∧
    (postDeploy w env dirname now body).settled = none ∧
    (∀ request, body = some request →
      (postDeploy w env dirname now body).response =
        { status := 400, success := false,
          message := "Missing required parameters: repoUrl, branch, or appName",
          deploymentId := none, error := none }) ∧
    (body = none →
      (postDeploy w env dirname now body).response =
        { status := 500, success := false, message := "Failed to initiate deployment",
          deploymentId := none, error := some destructureError.message }) := by
  cases body with
  | none => simp [postDeploy, postDeployTry, failedToInitiate, bind, Except.bind, throw, throwThe,
      MonadExceptOf.throw]
  | some request =>
    have hreq := h request rfl
    obtain ⟨repoUrl, branch, appName⟩ := request
    cases repoUrl <;> cases branch <;> cases appName <;>
      simp_all [postDeploy, postDeployTry, missingParameters, bind, Except.bind, pure, Except.pure]

theorem postDeploy_missing_parameter_witness :
    (postDeploy calmWorld bareEnv "/srv/app" 42
        (some { repoUrl := some "https://example/repo.git", branch := some "",
                appName := none })).response.status
      = 400 ∧
    (postDeploy calmWorld bareEnv "/srv/app" 42
        (some { repoUrl := some "https://example/repo.git", branch := some "",
                appName := none })).launched
      = [] :=
  let h := postDeploy_missing_parameter calmWorld bareEnv "/srv/app" 42
    (some { repoUrl := some "https://example/repo.git", branch := some "", appName := none })
    (fun request hreq => by
      cases hreq
      exact Or.inr (Or.inr (Or.inr (Or.inl rfl))))
  ⟨by rw [h.2.2.2.1 _ rfl], h.1⟩

/-- Against C1 as stated: a request with no parsed body has none of the three
fields, and it is answered with status 500, not 400. -/
theorem postDeploy_unparsed_body :
    (postDeploy calmWorld bareEnv "/srv/app" 42 none).response =
      { status := 500, success := false, message := "Failed to initiate deployment",
        deploymentId := none,
        error := some "Cannot destructure property \x27repoUrl\x27 of \x27req.body\x27 as it is undefined." } ∧
    (postDeploy calmWorld bareEnv "/srv/app" 42 none).response.status ≠ 400 := by
  decide

/-- C2: a body whose `repoUrl`, `branch` and `appName` are non-empty strings is
answered with status 202 and `{success: true, message: "Deployment started",
deploymentId}`, where `deploymentId` is `appName`, a dash and the decimal clock
reading; `deployApplication` is started exactly once, with `(deploymentId,
repoUrl, branch, appName)`; and the response is the same for every behaviour of
the collaborators, hence for every result of the pipeline. -/
theorem postDeploy_accepts (w : World) (env : Env) (dirname : String) (now : Nat)
    (repoUrl branch appName : String)
    (hrepo : repoUrl ≠ "") (hbranch : branch ≠ "") (hname : appName ≠ "") :
    (postDeploy w env dirname now
        (some { repoUrl := some repoUrl, branch := some branch,
                appName := some appName })).response =
      { status := 202, success := true, message := "Deployment started",
        deploymentId := some (appName ++ "-" ++ toString now), error := none } ∧
    (postDeploy w env dirname now
        (some { repoUrl := some repoUrl, branch := some branch,
                appName := some appName })).launched =
      [{ deploymentId := appName ++ "-" ++ toString now, repoUrl := repoUrl, branch := branch,
         appName := appName }] ∧
    (postDeploy w env dirname now
        (some { repoUrl := some repoUrl, branch := some branch,
                appName := some appName })).settled =
      some ((deployApplication w env dirname (appName ++ "-" ++ toString now)
        repoUrl branch appName).run []).1 ∧
    (postDeploy w env dirname now
        (some { repoUrl := some repoUrl, branch := some branch,
                appName := some appName })).events =
      ((deployApplication w env dirname (appName ++ "-" ++ toString now)
        repoUrl branch appName).run []).2 ∧
    ∀ (w2 : World) (env2 : Env),
      (postDeploy w2 env2 dirname now
          (some { repoUrl := some repoUrl, branch := some branch,
                  appName := some appName })).response =
        (postDeploy w env dirname now
          (some { repoUrl := some repoUrl, branch := some branch,
                  appName := some appName })).response := by
  simp [postDeploy, postDeployTry, makeDeploymentId, hrepo, hbranch, hname, bind, Except.bind,
    pure, Except.pure]

theorem postDeploy_accepts_witness :
    (postDeploy noBranchWorld bareEnv "/srv/app" 42
        (some { repoUrl := some "https://example/repo.git", branch := some "main",
                appName := some "svc1" })).response =
      { status := 202, success := true, message := "Deployment started",
        deploymentId := some "svc1-42", error := none } :=
  (postDeploy_accepts noBranchWorld bareEnv "/srv/app" 42 "https://example/repo.git" "main" "svc1"
    (by decide) (by decide) (by decide)).1

/-! ## The registry gateway -/

/-- C6: `getOrCreateECRRepo(name)`: when the lookup succeeds it returns the
first looked-up record and issues no create call; when the lookup fails with
`RepositoryNotFoundException` it issues exactly one create call, for that same
name, and returns the created record (or fails with the error of the create
call); when the lookup fails with any other error, that error propagates
unchanged and no create call is issued. -/
theorem getOrCreateECRRepo_lookup_then_create (w : World) (name : String) (events : List Event) :
    (∀ repos, w.describeRepositories (events.map Event.call) [name] = .ok repos →
      (getOrCreateECRRepo w name).run events =
        (.ok repos.head?, events ++ [⟨.describeRepositories [name], none⟩])) ∧
    (∀ e, w.describeRepositories (events.map Event.call) [name] = .error e →
      e.name = "RepositoryNotFoundException" →
      (∀ repo,
        w.createRepository (events.map Event.call ++ [.describeRepositories [name]]) name
          = .ok repo →
        (getOrCreateECRRepo w name).run events =
          (.ok (some repo),
            events ++ [⟨.describeRepositories [name], some e⟩, ⟨.createRepository name, none⟩])) ∧
      (∀ e2,
        w.createRepository (events.map Event.call ++ [.describeRepositories [name]]) name
          = .error e2 →
        (getOrCreateECRRepo w name).run events =
          (.error e2,
            events ++ [⟨.describeRepositories [name], some e⟩,
              ⟨.createRepository name, some e2⟩]))) ∧
    (∀ e, w.describeRepositories (events.map Event.call) [name] = .error e →
      e.name ≠ "RepositoryNotFoundException" →
      (getOrCreateECRRepo w name).run events =
        (.error e, events ++ [⟨.describeRepositories [name], some e⟩])) := by
  refine ⟨?_, ?_, ?_⟩
  · intro repos h
    rw [getOrCreateECRRepo_run, h]
  · intro e h hn
    refine ⟨?_, ?_⟩
    · intro repo h2
      rw [getOrCreateECRRepo_run, h]
      simp only [hn, if_true]
      rw [h2]
    · intro e2 h2
      rw [getOrCreateECRRepo_run, h]
      simp only [hn, if_true]
      rw [h2]
  · intro e h hn
    rw [getOrCreateECRRepo_run, h]
    simp only [hn, if_false]

theorem getOrCreateECRRepo_lookup_then_create_witness :
    (getOrCreateECRRepo noRepositoryWorld "svc1").run [] =
      (.ok (some { repositoryName := "svc1", repositoryUri := "123.dkr.ecr.aws/svc1" }),
        [⟨.describeRepositories ["svc1"],
            some { name := "RepositoryNotFoundException", message := "no such repository" }⟩,
          ⟨.createRepository "svc1", none⟩]) :=
  ((getOrCreateECRRepo_lookup_then_create noRepositoryWorld "svc1" []).2.1
    { name := "RepositoryNotFoundException", message := "no such repository" } rfl rfl).1
    { repositoryName := "svc1", repositoryUri := "123.dkr.ecr.aws/svc1" } rfl

/-! ## The fleet gateway -/

theorem updateServiceCalls_append (xs ys : List Event) :
    updateServiceCalls (xs ++ ys) = updateServiceCalls xs + updateServiceCalls ys := by
  simp [updateServiceCalls]

theorem createServiceCalls_append (xs ys : List Event) :
    createServiceCalls (xs ++ ys) = createServiceCalls xs + createServiceCalls ys := by
  simp [createServiceCalls]

/-- C5 (amended): after a successful registration, `updateECSService` always
invokes update-service exactly once. When that update succeeds, create-service
is never invoked. When that update reports `ServiceNotFoundException` and
`ECS_SUBNETS` and `ECS_SECURITY_GROUPS` are set, create-service is invoked
exactly once, after the update; when one of the two variables is not set, the
run fails with a `TypeError` before any create-service call. -/
theorem updateECSService_update_then_create (w : World) (env : Env) (appName imageUri : String)
    (events : List Event) (arn : String)
    (hreg : w.registerTaskDefinition (events.map Event.call)
      (taskDefinitionInput env appName imageUri) = .ok arn) :
    updateServiceCalls ((updateECSService w env appName imageUri).run events).2 =
      updateServiceCalls events + 1 ∧
    (w.updateService
        (events.map Event.call ++
          [.registerTaskDefinition (taskDefinitionInput env appName imageUri)])
        { cluster := orDefault env.ECS_CLUSTER "default", service := appName,
          taskDefinition := arn } = .ok () →
      createServiceCalls ((updateECSService w env appName imageUri).run events).2 =
        createServiceCalls events ∧
      ((updateECSService w env appName imageUri).run events).1 = .ok ()) ∧
    (∀ e,
      w.updateService
        (events.map Event.call ++
          [.registerTaskDefinition (taskDefinitionInput env appName imageUri)])
        { cluster := orDefault env.ECS_CLUSTER "default", service := appName,
          taskDefinition := arn } = .error e →
      e.name = "ServiceNotFoundException" →
      (∀ subnets groups, env.ECS_SUBNETS = some subnets → env.ECS_SECURITY_GROUPS = some groups →
        createServiceCalls ((updateECSService w env appName imageUri).run events).2 =
          createServiceCalls events + 1 ∧
        ∃ input outcome,
          ((updateECSService w env appName imageUri).run events).2.getLast? =
            some ⟨.createService input, outcome⟩) ∧
      (env.ECS_SUBNETS = none ∨ env.ECS_SECURITY_GROUPS = none →
        createServiceCalls ((updateECSService w env appName imageUri).run events).2 =
          createServiceCalls events ∧
        ((updateECSService w env appName imageUri).run events).1 =
          .error (typeError "split"))) := by
  rw [updateECSService_run]
  simp only [hreg]
  cases hupd : w.updateService
      (events.map Event.call ++
        [.registerTaskDefinition (taskDefinitionInput env appName imageUri)])
      { cluster := orDefault env.ECS_CLUSTER "default", service := appName,
        taskDefinition := arn } with
  | ok u =>
    simp [updateServiceCalls_append, createServiceCalls_append, updateServiceCalls,
      createServiceCalls]
  | error e =>
    by_cases hn : e.name = "ServiceNotFoundException"
    · simp only [hn, if_true]
      cases hs : env.ECS_SUBNETS with
      | none =>
        simp [updateServiceCalls_append, createServiceCalls_append, updateServiceCalls,
          createServiceCalls]
      | some subnets =>
        cases hg : env.ECS_SECURITY_GROUPS with
        | none =>
          simp [updateServiceCalls_append, createServiceCalls_append, updateServiceCalls,
            createServiceCalls]
        | some groups =>
          simp only
          cases w.createService
              (events.map Event.call ++
                [.registerTaskDefinition (taskDefinitionInput env appName imageUri),
                  .updateService
                    { cluster := orDefault env.ECS_CLUSTER "default", service := appName,
                      taskDefinition := arn }])
              { cluster := orDefault env.ECS_CLUSTER "default", serviceName := appName,
                taskDefinition := arn, desiredCount := 1, launchType := "FARGATE",
                subnets := jsSplit subnets ',', securityGroups := jsSplit groups ',',
                assignPublicIp := "ENABLED" } <;>
            simp [updateServiceCalls_append, createServiceCalls_append, updateServiceCalls,
              createServiceCalls, List.getLast?_append]
    · simp [hn, updateServiceCalls_append, createServiceCalls_append, updateServiceCalls,
        createServiceCalls]


theorem updateECSService_update_then_create_witness :
    createServiceCalls
        ((updateECSService noServiceWorld fleetEnv "svc1" "123.dkr.ecr.aws/svc1:latest").run []).2 =
      createServiceCalls [] + 1 :=
  (((updateECSService_update_then_create noServiceWorld fleetEnv "svc1"
      "123.dkr.ecr.aws/svc1:latest" [] "arn:task/svc1:7" rfl).2.2
    { name := "ServiceNotFoundException", message := "no such service" } rfl rfl).1
    "subnet-a,subnet-b" "sg-1" rfl rfl).1

/-- Against C5 as stated: the platform reports `ServiceNotFoundException`, and
update-service has been invoked (once), not never. -/
theorem updateECSService_probes_with_update :
    noServiceWorld.updateService
        [.registerTaskDefinition (taskDefinitionInput fleetEnv "svc1" "123.dkr.ecr.aws/svc1:latest")]
        { cluster := "prod", service := "svc1", taskDefinition := "arn:task/svc1:7" } =
      .error { name := "ServiceNotFoundException", message := "no such service" } ∧
    updateServiceCalls
        ((updateECSService noServiceWorld fleetEnv "svc1" "123.dkr.ecr.aws/svc1:latest").run []).2
      = 1 ∧
    ¬ updateServiceCalls
        ((updateECSService noServiceWorld fleetEnv "svc1" "123.dkr.ecr.aws/svc1:latest").run []).2
      = 0 :=
  ⟨rfl, by decide, by decide⟩

/-- C7 (amended): a call `updateECSService(appName, imageUri)` that does not
fail at registration registers exactly one task definition, with family
`appName`, container image `imageUri`, cpu "256", memory "512" and log group
`/ecs/` followed by `appName`. It is followed by exactly one update-service
call and, only when that update fails with `ServiceNotFoundException` and
`ECS_SUBNETS` and `ECS_SECURITY_GROUPS` are set, by one create-service call
with `desiredCount` 1. Each of these service calls names the cluster
`ECS_CLUSTER` (`default` when unset or empty), the service `appName` and the
`taskDefinitionArn` the registration returned. -/
theorem updateECSService_registers_and_names (w : World) (env : Env) (appName imageUri : String)
    (events : List Event) (arn : String)
    (hreg : w.registerTaskDefinition (events.map Event.call)
      (taskDefinitionInput env appName imageUri) = .ok arn) :
    (∃ outcome rest,
      ((updateECSService w env appName imageUri).run events).2 =
        events ++
          ⟨.registerTaskDefinition (taskDefinitionInput env appName imageUri), none⟩ ::
          ⟨.updateService
              { cluster := orDefault env.ECS_CLUSTER "default", service := appName,
                taskDefinition := arn }, outcome⟩ :: rest ∧
      outcome =
        (match w.updateService
            (events.map Event.call ++
              [.registerTaskDefinition (taskDefinitionInput env appName imageUri)])
            { cluster := orDefault env.ECS_CLUSTER "default", service := appName,
              taskDefinition := arn } with
          | .ok _ => none
          | .error e => some e) ∧
      (rest = [] ∨
        ∃ e subnets groups created,
          outcome = some e ∧ e.name = "ServiceNotFoundException" ∧
          env.ECS_SUBNETS = some subnets ∧ env.ECS_SECURITY_GROUPS = some groups ∧
          rest =
            [⟨.createService
                { cluster := orDefault env.ECS_CLUSTER "default", serviceName := appName,
                  taskDefinition := arn, desiredCount := 1, launchType := "FARGATE",
                  subnets := jsSplit subnets ',', securityGroups := jsSplit groups ',',
                  assignPublicIp := "ENABLED" }, created⟩]) ∧
      (∀ e subnets groups, outcome = some e → e.name = "ServiceNotFoundException" →
          env.ECS_SUBNETS = some subnets → env.ECS_SECURITY_GROUPS = some groups → rest ≠ [])) ∧
    (taskDefinitionInput env appName imageUri).family = appName ∧
    (taskDefinitionInput env appName imageUri).containerDefinitions.map (fun c => c.image) =
      [imageUri] ∧
    (taskDefinitionInput env appName imageUri).cpu = "256" ∧
    (taskDefinitionInput env appName imageUri).memory = "512" ∧
    (taskDefinitionInput env appName imageUri).containerDefinitions.map
        (fun c => c.logConfiguration.awslogsGroup) = ["/ecs/" ++ appName] ∧
    (env.ECS_CLUSTER = none ∨ env.ECS_CLUSTER = some "" →
      orDefault env.ECS_CLUSTER "default" = "default") ∧
    (∀ c, env.ECS_CLUSTER = some c → c ≠ "" → orDefault env.ECS_CLUSTER "default" = c) := by
  refine ⟨?_, rfl, rfl, rfl, rfl, rfl, ?_, ?_⟩
  · rw [updateECSService_run]
    simp only [hreg]
    cases hupd : w.updateService
        (events.map Event.call ++
          [.registerTaskDefinition (taskDefinitionInput env appName imageUri)])
        { cluster := orDefault env.ECS_CLUSTER "default", service := appName,
          taskDefinition := arn } with
    | ok u => exact ⟨none, [], rfl, rfl, Or.inl rfl, by simp⟩
    | error e =>
      by_cases hn : e.name = "ServiceNotFoundException"
      · simp only [hn, if_true]
        cases hs : env.ECS_SUBNETS with
        | none => exact ⟨some e, [], rfl, rfl, Or.inl rfl, by simp⟩
        | some subnets =>
          cases hg : env.ECS_SECURITY_GROUPS with
          | none => exact ⟨some e, [], rfl, rfl, Or.inl rfl, by simp⟩
          | some groups =>
            simp only
            cases w.createService
                (events.map Event.call ++
                  [.registerTaskDefinition (taskDefinitionInput env appName imageUri),
                    .updateService
                      { cluster := orDefault env.ECS_CLUSTER "default", service := appName,
                        taskDefinition := arn }])
                { cluster := orDefault env.ECS_CLUSTER "default", serviceName := appName,
                  taskDefinition := arn, desiredCount := 1, launchType := "FARGATE",
                  subnets := jsSplit subnets ',', securityGroups := jsSplit groups ',',
                  assignPublicIp := "ENABLED" } with
            | ok u =>
              exact ⟨some e, _, rfl, rfl,
                Or.inr ⟨e, subnets, groups, none, rfl, hn, rfl, rfl, rfl⟩, by simp⟩
            | error e2 =>
              exact ⟨some e, _, rfl, rfl,
                Or.inr ⟨e, subnets, groups, some e2, rfl, hn, rfl, rfl, rfl⟩, by simp⟩
      · simp only [hn, if_false]
        refine ⟨some e, [], rfl, rfl, Or.inl rfl, ?_⟩
        intro e1 _ _ h1 h2
        simp at h1
        subst h1
        exact absurd h2 hn
  · intro h
    rcases h with h | h <;> simp [orDefault, h]
  · intro c h hc
    simp [orDefault, h, hc]

theorem updateECSService_registers_and_names_witness :
    (taskDefinitionInput fleetEnv "svc1" "123.dkr.ecr.aws/svc1:latest").family = "svc1" ∧
    ∀ c, fleetEnv.ECS_CLUSTER = some c → c ≠ "" → orDefault fleetEnv.ECS_CLUSTER "default" = c :=
  let h := updateECSService_registers_and_names calmWorld fleetEnv "svc1"
    "123.dkr.ecr.aws/svc1:latest" [] "arn:task/svc1:7" rfl
  ⟨h.2.1, h.2.2.2.2.2.2.2⟩

/-- Against C7 as stated: when the service does not exist, two service calls
follow the registration, a failed update-service and a create-service. -/
theorem updateECSService_two_service_calls :
    ((updateECSService noServiceWorld fleetEnv "svc1" "123.dkr.ecr.aws/svc1:latest").run []).2 =
      [⟨.registerTaskDefinition (taskDefinitionInput fleetEnv "svc1" "123.dkr.ecr.aws/svc1:latest"),
          none⟩,
        ⟨.updateService { cluster := "prod", service := "svc1", taskDefinition := "arn:task/svc1:7" },
          some { name := "ServiceNotFoundException", message := "no such service" }⟩,
        ⟨.createService
            { cluster := "prod", serviceName := "svc1", taskDefinition := "arn:task/svc1:7",
              desiredCount := 1, launchType := "FARGATE", subnets := ["subnet-a", "subnet-b"],
              securityGroups := ["sg-1"], assignPublicIp := "ENABLED" }, none⟩] := by
  decide

/-! ## Fail-fast -/

/-- C3: in every run of `deployApplication`, a call that fails, other than a
repository lookup failing with `RepositoryNotFoundException` or a service
update failing with `ServiceNotFoundException`, is the last call of the run:
the calls of the run follow the sequence mkdir, clone, checkout, docker build,
repository ensure, auth token, docker login, docker tag, docker push, register
task definition, update service, create service, none of them comes after the
failed one in that sequence, and `deployApplication` rejects with exactly the
error of the failed call. In particular no call of a later step is made when
clone or checkout fails. -/
theorem deployApplication_fail_fast (w : World) (env : Env)
    (dirname deploymentId repoUrl branch appName : String)
    (before after : List Event) (c : Call) (e : Err)
    (hrun : ((deployApplication w env dirname deploymentId repoUrl branch appName).run []).2 =
      before ++ ⟨c, some e⟩ :: after)
    (hfatal : Event.recovered ⟨c, some e⟩ = false) :
    after = [] ∧
    ((deployApplication w env dirname deploymentId repoUrl branch appName).run []).1 = .error e ∧
    ((((deployApplication w env dirname deploymentId repoUrl branch appName).run []).2.map
      fun ev => ev.call.step).Pairwise (· < ·)) ∧
    (∀ ev ∈ before, ev.call.step < c.step) ∧
    (∀ ev ∈ ((deployApplication w env dirname deploymentId repoUrl branch appName).run []).2,
      ev.call.step ≤ c.step) := by
  obtain ⟨new, h1, hp, _, hd, hl⟩ :=
    Orderly.of_deployApplication w env dirname deploymentId repoUrl branch appName []
  rw [List.nil_append] at h1
  rw [h1] at hrun ⊢
  subst hrun
  have hfat : Event.fatal ⟨c, some e⟩ = true := by simp [Event.fatal, hfatal]
  have hafter : after = [] := by
    by_contra hne
    have hmem : (⟨c, some e⟩ : Event) ∈ (before ++ ⟨c, some e⟩ :: after).dropLast := by
      rw [List.dropLast_append_cons, List.dropLast_cons_of_ne_nil hne]
      simp
    rw [hd _ hmem] at hfat
    cases hfat
  subst hafter
  obtain ⟨e1, he1, hres⟩ := hl ⟨c, some e⟩ (List.getLast?_concat before) hfat
  simp only [Option.some.injEq] at he1
  subst he1
  rw [List.map_append, List.pairwise_append] at hp
  have hbefore : ∀ ev ∈ before, ev.call.step < c.step := by
    intro ev hev
    exact hp.2.2 _ (List.mem_map.mpr ⟨ev, hev, rfl⟩) _ (by simp)
  refine ⟨rfl, hres, ?_, hbefore, ?_⟩
  · rw [List.map_append, List.pairwise_append]
    exact hp
  · intro ev hev
    rcases List.mem_append.mp hev with hmem | hmem
    · exact Nat.le_of_lt (hbefore ev hmem)
    · simp at hmem
      subst hmem
      exact Nat.le_refl _

theorem deployApplication_fail_fast_witness :
    ((deployApplication noBranchWorld bareEnv "/srv/app" "svc1-42" "https://example/repo.git"
        "main" "svc1").run []).2 =
      [⟨.mkdirSync "/srv/app/deployments/svc1-42", none⟩,
        ⟨.gitClone "https://example/repo.git" "/srv/app/deployments/svc1-42", none⟩] ++
        ⟨.gitCheckout "/srv/app/deployments/svc1-42" "main",
          some { name := "GitError", message := "branch not found" }⟩ :: [] ∧
    ((deployApplication noBranchWorld bareEnv "/srv/app" "svc1-42" "https://example/repo.git"
        "main" "svc1").run []).1 = .error { name := "GitError", message := "branch not found" } ∧
    ∀ ev ∈ ((deployApplication noBranchWorld bareEnv "/srv/app" "svc1-42"
        "https://example/repo.git" "main" "svc1").run []).2,
      ev.call.step ≤ 2 :=
  let h := deployApplication_fail_fast noBranchWorld bareEnv "/srv/app" "svc1-42"
    "https://example/repo.git" "main" "svc1"
    [⟨.mkdirSync "/srv/app/deployments/svc1-42", none⟩,
      ⟨.gitClone "https://example/repo.git" "/srv/app/deployments/svc1-42", none⟩] []
    (.gitCheckout "/srv/app/deployments/svc1-42" "main")
    { name := "GitError", message := "branch not found" } (by decide) (by decide)
  ⟨by decide, h.2.1, h.2.2.2.2⟩

/-! ## Identifiers, image tags and work directories -/

theorem digitChar_ne_dash_slash (k : Nat) (hk : k < 10) :
    Nat.digitChar k ≠ '-' ∧ Nat.digitChar k ≠ '/' := by
  interval_cases k <;> decide

theorem toDigitsCore_not_mem (c : Char) (hc : ∀ k, k < 10 → Nat.digitChar k ≠ c) :
    ∀ (fuel n : Nat) (ds : List Char), c ∉ ds → c ∉ Nat.toDigitsCore 10 fuel n ds := by
  intro fuel
  induction fuel with
  | zero => intro n ds hds; simpa [Nat.toDigitsCore] using hds
  | succ fuel ih =>
    intro n ds hds
    have hd : c ∉ Nat.digitChar (n % 10) :: ds := by
      intro hmem
      rcases List.mem_cons.mp hmem with h | h
      · exact hc (n % 10) (Nat.mod_lt _ (by decide)) h.symm
      · exact hds h
    unfold Nat.toDigitsCore
    simp only
    split
    · exact hd
    · exact ih _ _ hd

/-- The decimal rendering of a clock reading has no dash and no slash. -/
theorem toString_nat_chars (n : Nat) :
    '-' ∉ (toString n).data ∧ '/' ∉ (toString n).data := by
  have h : (toString n).data = Nat.toDigitsCore 10 (n + 1) n [] := rfl
  rw [h]
  exact ⟨toDigitsCore_not_mem '-' (fun k hk => (digitChar_ne_dash_slash k hk).1) _ _ _ (by simp),
    toDigitsCore_not_mem '/' (fun k hk => (digitChar_ne_dash_slash k hk).2) _ _ _ (by simp)⟩

theorem makeDeploymentId_data (appName : String) (now : Nat) :
    (makeDeploymentId appName now).data = appName.data ++ '-' :: (toString now).data := by
  simp [makeDeploymentId, String.data_append]

/-- Cutting at the first occurrence of a character is unambiguous. -/
theorem cut_at_first {a : Char} :
    ∀ {p1 p2 s1 s2 : List Char}, a ∉ p1 → a ∉ p2 → p1 ++ a :: s1 = p2 ++ a :: s2 →
      p1 = p2 ∧ s1 = s2 := by
  intro p1
  induction p1 with
  | nil =>
    intro p2 s1 s2 _ h2 h
    cases p2 with
    | nil => simpa using h
    | cons c p2 =>
      simp only [List.nil_append, List.cons_append, List.cons.injEq] at h
      exact absurd (by rw [h.1]; simp) h2
  | cons c p1 ih =>
    intro p2 s1 s2 h1 h2 h
    cases p2 with
    | nil =>
      simp only [List.nil_append, List.cons_append, List.cons.injEq] at h
      exact absurd (by rw [← h.1]; simp) h1
    | cons d p2 =>
      simp only [List.cons_append, List.cons.injEq] at h
      obtain ⟨hp, hs⟩ := ih (fun hm => h1 (List.mem_cons_of_mem _ hm))
        (fun hm => h2 (List.mem_cons_of_mem _ hm)) h.2
      exact ⟨by rw [h.1, hp], hs⟩

/-- Cutting at the last occurrence of a character is unambiguous. -/
theorem cut_at_last {a : Char} {p1 p2 s1 s2 : List Char} (h1 : a ∉ s1) (h2 : a ∉ s2)
    (h : p1 ++ a :: s1 = p2 ++ a :: s2) : p1 = p2 ∧ s1 = s2 := by
  have hr := congrArg List.reverse h
  simp only [List.reverse_append, List.reverse_cons, List.append_assoc, List.singleton_append]
    at hr
  obtain ⟨hs, hp⟩ := cut_at_first (by simpa using h1) (by simpa using h2) hr
  exact ⟨List.reverse_injective hp, List.reverse_injective hs⟩

/-- C8: image tags never collide across runs with different ids: for all
application names `a1`, `a2` and clock readings `t1`, `t2`, with the ids the
trigger boundary generates and the image tags `deployApplication` builds from
them, different ids give different image tags, also when `a1 = a2`. -/
theorem imageTag_distinct (a1 a2 : String) (t1 t2 : Nat)
    (h : makeDeploymentId a1 t1 ≠ makeDeploymentId a2 t2) :
    imageTag a1 (makeDeploymentId a1 t1) ≠ imageTag a2 (makeDeploymentId a2 t2) := by
  intro heq
  apply h
  have hd := congrArg String.data heq
  simp only [imageTag, String.data_append, makeDeploymentId_data] at hd
  have hd2 : (a1.data ++ ':' :: a1.data) ++ '-' :: (toString t1).data =
      (a2.data ++ ':' :: a2.data) ++ '-' :: (toString t2).data := by
    simpa [List.append_assoc] using hd
  obtain ⟨hname, htime⟩ := cut_at_last (toString_nat_chars t1).1 (toString_nat_chars t2).1 hd2
  have hlen : a1.data.length = a2.data.length := by
    have := congrArg List.length hname
    simp only [List.length_append, List.length_cons] at this
    omega
  have ha : a1.data = a2.data := (List.append_inj hname hlen).1
  apply String.ext
  rw [makeDeploymentId_data, makeDeploymentId_data, ha, htime]

theorem imageTag_distinct_witness :
    makeDeploymentId "svc1" 41 ≠ makeDeploymentId "svc1" 42 ∧
    imageTag "svc1" (makeDeploymentId "svc1" 41) ≠ imageTag "svc1" (makeDeploymentId "svc1" 42) :=
  ⟨by decide, imageTag_distinct "svc1" "svc1" 41 42 (by decide)⟩


theorem splitChars_ne_nil (sep : Char) : ∀ s : List Char, splitChars sep s ≠ [] := by
  intro s
  induction s with
  | nil => simp [splitChars]
  | cons c cs ih =>
    unfold splitChars
    split
    · simp
    · split <;> simp

theorem splitChars_of_not_mem (sep : Char) :
    ∀ s : List Char, sep ∉ s → splitChars sep s = [s] := by
  intro s
  induction s with
  | nil => intro _; rfl
  | cons c cs ih =>
    intro h
    have hc : c ≠ sep := fun hc => h (by rw [hc]; simp)
    have hcs : sep ∉ cs := fun hm => h (List.mem_cons_of_mem _ hm)
    unfold splitChars
    rw [if_neg hc, ih hcs]

theorem splitChars_append_sep (sep : Char) (b : List Char) :
    ∀ a : List Char, splitChars sep (a ++ sep :: b) = splitChars sep a ++ splitChars sep b := by
  intro a
  induction a with
  | nil => simp [splitChars]
  | cons c cs ih =>
    by_cases hc : c = sep
    · simp only [List.cons_append]
      rw [splitChars, if_pos hc, ih]
      conv => rhs; rw [splitChars, if_pos hc]
      rfl
    · simp only [List.cons_append]
      rw [splitChars, if_neg hc, ih]
      conv => rhs; rw [splitChars, if_neg hc]
      cases hsplit : splitChars sep cs with
      | nil => exact absurd hsplit (splitChars_ne_nil sep cs)
      | cons seg segs => rfl

theorem joinSegments_concat (s : List Char) :
    ∀ segs : List (List Char),
      joinSegments (segs ++ [s]) = (segs.map fun x => x ++ ['/']).flatten ++ s := by
  intro segs
  induction segs with
  | nil => simp [joinSegments]
  | cons x xs ih =>
    cases xs with
    | nil => simp [joinSegments]
    | cons y ys =>
      have : joinSegments (x :: ((y :: ys) ++ [s])) = x ++ '/' :: joinSegments ((y :: ys) ++ [s]) := by
        simp [joinSegments]
      simp only [List.cons_append] at this ih ⊢
      rw [this, ih]
      simp

theorem joinSegments_cons_of_ne_nil (s : List Char) {rest : List (List Char)} (h : rest ≠ []) :
    joinSegments (s :: rest) = s ++ '/' :: joinSegments rest := by
  cases rest with
  | nil => exact absurd rfl h
  | cons t ts => rfl

theorem joinSegments_append (tail : List (List Char)) (htail : tail ≠ []) :
    ∀ segs : List (List Char),
      joinSegments (segs ++ tail) = (segs.map fun x => x ++ ['/']).flatten ++ joinSegments tail := by
  intro segs
  induction segs with
  | nil => simp
  | cons x xs ih =>
    rw [List.cons_append, joinSegments_cons_of_ne_nil x (by simp [htail]), ih]
    simp

/-- Joining the pieces of a text gives the text back. -/
theorem joinSegments_splitChars : ∀ s : List Char, joinSegments (splitChars '/' s) = s := by
  intro s
  induction s with
  | nil => rfl
  | cons c cs ih =>
    by_cases hc : c = '/'
    · rw [splitChars, if_pos hc, joinSegments_cons_of_ne_nil _ (splitChars_ne_nil '/' cs), ih, hc]
      rfl
    · rw [splitChars, if_neg hc]
      cases hsplit : splitChars '/' cs with
      | nil => exact absurd hsplit (splitChars_ne_nil '/' cs)
      | cons seg segs =>
        rw [hsplit] at ih
        simp only
        cases segs with
        | nil =>
          simp only [joinSegments] at ih ⊢
          rw [ih]
        | cons t ts =>
          rw [joinSegments_cons_of_ne_nil _ (by simp)] at ih ⊢
          rw [List.cons_append, ih]

theorem splitChars_no_sep (sep : Char) :
    ∀ (s seg : List Char), seg ∈ splitChars sep s → sep ∉ seg := by
  intro s
  induction s with
  | nil =>
    intro seg hseg
    simp only [splitChars, List.mem_singleton] at hseg
    rw [hseg]
    simp
  | cons c cs ih =>
    intro seg hseg
    by_cases hc : c = sep
    · rw [splitChars, if_pos hc] at hseg
      rcases List.mem_cons.mp hseg with h | h
      · rw [h]; simp
      · exact ih seg h
    · rw [splitChars, if_neg hc] at hseg
      cases hsplit : splitChars sep cs with
      | nil => exact absurd hsplit (splitChars_ne_nil sep cs)
      | cons first others =>
        rw [hsplit] at hseg ih
        simp only at hseg
        rcases List.mem_cons.mp hseg with h | h
        · rw [h]
          intro hmem
          rcases List.mem_cons.mp hmem with h1 | h1
          · exact hc h1.symm
          · exact ih first (by simp) h1
        · exact ih seg (List.mem_cons_of_mem _ h)

theorem foldl_pushSegment_plain (b : Bool) :
    ∀ (segs stack : List (List Char)),
      (∀ seg ∈ segs, seg ≠ [] ∧ seg ≠ ['.'] ∧ seg ≠ ['.', '.']) →
      segs.foldl (pushSegment b) stack = segs.reverse ++ stack := by
  intro segs
  induction segs with
  | nil => intro stack _; rfl
  | cons x xs ih =>
    intro stack h
    have hx := h x (by simp)
    have hpush : pushSegment b stack x = x :: stack := by
      simp [pushSegment, hx.1, hx.2.1, hx.2.2]
    rw [List.foldl_cons, hpush, ih _ (fun seg hseg => h seg (List.mem_cons_of_mem _ hseg))]
    simp

/-- Normalizing a path that ends in ordinary segments keeps them at the end,
after a part that only depends on what comes before them. -/
theorem pathNormalize_plain_tail (dir : List Char) (hdir : dir ≠ []) :
    ∃ front : List Char, ∀ name : List Char,
      (∀ seg ∈ splitChars '/' name, seg ≠ [] ∧ seg ≠ ['.'] ∧ seg ≠ ['.', '.']) →
      pathNormalize (dir ++ '/' :: name) = front ++ name := by
  refine ⟨(if dir.head? = some '/' then ['/'] else []) ++
    ((((splitChars '/' dir).foldl (pushSegment (!decide (dir.head? = some '/'))) []).reverse.map
      fun x => x ++ ['/']).flatten), ?_⟩
  intro name hplain
  have hhead : (dir ++ '/' :: name).head? = dir.head? := by
    cases dir with
    | nil => exact absurd rfl hdir
    | cons c cs => rfl
  have hsegs : splitChars '/' name ≠ [] := splitChars_ne_nil '/' name
  have hname : name ≠ [] := by
    intro h
    rw [h] at hplain
    exact (hplain [] (by simp [splitChars])).1 rfl
  have hlast : ¬ (dir ++ '/' :: name).getLast? = some '/' := by
    rcases List.eq_nil_or_concat (splitChars '/' name) with h | ⟨front, last, h⟩
    · exact absurd h hsegs
    · rw [List.concat_eq_append] at h
      have hmem : last ∈ splitChars '/' name := by rw [h]; simp
      have hlastne : last ≠ [] := (hplain last hmem).1
      have hjoin : name = (front.map fun x => x ++ ['/']).flatten ++ last := by
        rw [← joinSegments_concat, ← h, joinSegments_splitChars]
      rw [hjoin, ← List.cons_append, ← List.append_assoc, List.getLast?_append_of_ne_nil _ hlastne]
      intro hl
      exact splitChars_no_sep '/' name last hmem (List.mem_of_mem_getLast? (by rw [hl]; rfl))
  have hkept : ((splitChars '/' (dir ++ '/' :: name)).foldl
      (pushSegment (!decide (dir.head? = some '/'))) []).reverse =
      ((splitChars '/' dir).foldl (pushSegment (!decide (dir.head? = some '/'))) []).reverse ++
        splitChars '/' name := by
    rw [splitChars_append_sep, List.foldl_append, foldl_pushSegment_plain _ _ _ hplain]
    simp
  have hres : ∀ segs : List (List Char), joinSegments (segs ++ splitChars '/' name) ≠ [] := by
    intro segs
    rw [joinSegments_append _ hsegs, joinSegments_splitChars]
    simp [hname]
  unfold pathNormalize
  have hnonempty : dir ++ '/' :: name ≠ [] := by simp
  simp only [hnonempty, if_false, hhead, hlast, hkept, hres]
  rw [joinSegments_append _ hsegs, joinSegments_splitChars]
  by_cases habs : dir.head? = some '/' <;> simp [habs]

theorem plainSegments_iff (s : String) :
    plainSegments s = true ↔
      ∀ seg ∈ splitChars '/' s.data, seg ≠ [] ∧ seg ≠ ['.'] ∧ seg ≠ ['.', '.'] := by
  simp [plainSegments, List.all_eq_true]

theorem workDir_data (dirname : String) :
    ∃ front : List Char, ∀ id : String, plainSegments id = true →
      (workDir dirname id).data = front ++ id.data := by
  by_cases hd : dirname = ""
  · obtain ⟨front, hfront⟩ := pathNormalize_plain_tail "deployments".data (by decide)
    refine ⟨front, ?_⟩
    intro id hplain
    rw [plainSegments_iff] at hplain
    have hid : id ≠ "" := by
      intro h
      rw [h] at hplain
      exact (hplain [] (by simp [splitChars])).1 rfl
    have hjoin : pathJoin [dirname, "deployments", id] =
        String.mk (pathNormalize ("deployments".data ++ '/' :: id.data)) := by
      simp [pathJoin, hd, hid, List.filter, joinSegments]
    rw [workDir, hjoin]
    exact hfront id.data hplain
  · obtain ⟨front, hfront⟩ :=
      pathNormalize_plain_tail (dirname.data ++ '/' :: "deployments".data) (by simp)
    refine ⟨front, ?_⟩
    intro id hplain
    rw [plainSegments_iff] at hplain
    have hid : id ≠ "" := by
      intro h
      rw [h] at hplain
      exact (hplain [] (by simp [splitChars])).1 rfl
    have hjoin : pathJoin [dirname, "deployments", id] =
        String.mk (pathNormalize ((dirname.data ++ '/' :: "deployments".data) ++ '/' :: id.data)) := by
      simp [pathJoin, hd, hid, List.filter, joinSegments]
    rw [workDir, hjoin]
    exact hfront id.data hplain

/-- C9 (amended): on a POSIX platform, a run's work directory is unique per id
among the ids none of whose `/`-separated segments is empty, `.` or `..`: two
different such deployment ids, each an application name followed by a dash and
a decimal clock reading, give different work directories
`path.join(base, "deployments", id)`. Application names may contain `/`. -/
theorem workDir_distinct (dirname a1 a2 : String) (t1 t2 : Nat)
    (h1 : plainSegments (makeDeploymentId a1 t1) = true)
    (h2 : plainSegments (makeDeploymentId a2 t2) = true)
    (h : makeDeploymentId a1 t1 ≠ makeDeploymentId a2 t2) :
    workDir dirname (makeDeploymentId a1 t1) ≠ workDir dirname (makeDeploymentId a2 t2) := by
  intro heq
  apply h
  obtain ⟨front, hfront⟩ := workDir_data dirname
  have hd := congrArg String.data heq
  rw [hfront _ h1, hfront _ h2] at hd
  exact String.ext (List.append_cancel_left hd)

theorem workDir_distinct_witness :
    makeDeploymentId "team/api" 41 ≠ makeDeploymentId "team/web" 41 ∧
    workDir "/srv/app" (makeDeploymentId "team/api" 41) ≠
      workDir "/srv/app" (makeDeploymentId "team/web" 41) :=
  ⟨by decide,
    workDir_distinct "/srv/app" "team/api" "team/web" 41 41 (by decide) (by decide) (by decide)⟩

/-- Against C9 as stated: two non-empty application names, two different ids,
one work directory, because `path.join` normalizes the `..` segment away. -/
theorem workDir_collision :
    "a/../b" ≠ "" ∧ "b" ≠ "" ∧
    makeDeploymentId "a/../b" 1 ≠ makeDeploymentId "b" 1 ∧
    workDir "/srv/app" (makeDeploymentId "a/../b" 1) = workDir "/srv/app" (makeDeploymentId "b" 1) := by
  decide

/-! ## The steps, when they end well -/

theorem fetchStage_ok {w : World} {repoUrl branch workDir : String} {events events1 : List Event}
    {u : Unit} (h : (fetchStage w repoUrl branch workDir).run events = (.ok u, events1)) :
    events1 = events ++ [⟨.mkdirSync workDir, none⟩, ⟨.gitClone repoUrl workDir, none⟩,
      ⟨.gitCheckout workDir branch, none⟩] := by
  unfold fetchStage at h
  obtain ⟨_, e1, h1, h⟩ := Async.run_bind_ok_inv h
  obtain ⟨_, e2, h2, h⟩ := Async.run_bind_ok_inv h
  rw [(Async.run_perform_ok_inv h).2, (Async.run_perform_ok_inv h2).2,
    (Async.run_perform_ok_inv h1).2]
  simp

theorem buildStage_ok {w : World} {imageTag workDir : String} {events events1 : List Event}
    {u : Unit} (h : (buildStage w imageTag workDir).run events = (.ok u, events1)) :
    events1 = events ++
      [⟨.execSync ("docker build -t " ++ imageTag ++ " .") (some workDir), none⟩] := by
  unfold buildStage at h
  exact (Async.run_perform_ok_inv h).2

theorem getOrCreateECRRepo_ok {w : World} {name : String} {events events1 : List Event}
    {ecrRepo : Option Repository}
    (h : (getOrCreateECRRepo w name).run events = (.ok ecrRepo, events1)) :
    events1 = events ++ [⟨.describeRepositories [name], none⟩] ∨
    ∃ e, e.name = "RepositoryNotFoundException" ∧
      events1 = events ++ [⟨.describeRepositories [name], some e⟩,
        ⟨.createRepository name, none⟩] := by
  rw [getOrCreateECRRepo_run] at h
  cases hd : w.describeRepositories (events.map Event.call) [name] with
  | ok repos =>
    rw [hd] at h
    simp at h
    exact Or.inl h.2.symm
  | error e =>
    rw [hd] at h
    by_cases hn : e.name = "RepositoryNotFoundException"
    · simp only [hn, if_true] at h
      cases hc : w.createRepository (events.map Event.call ++ [.describeRepositories [name]])
          name with
      | ok repo =>
        rw [hc] at h
        simp at h
        exact Or.inr ⟨e, hn, h.2.symm⟩
      | error e2 =>
        rw [hc] at h
        simp at h
    · simp [hn] at h

theorem repositoryUriOf_ok {ecrRepo : Option Repository} {events events1 : List Event}
    {uri : String} (h : (repositoryUriOf ecrRepo).run events = (.ok uri, events1)) :
    (∃ repo, ecrRepo = some repo ∧ uri = repo.repositoryUri) ∧ events1 = events := by
  cases ecrRepo with
  | none => simp [repositoryUriOf, Async.run_throw] at h
  | some repo =>
    simp [repositoryUriOf, Async.run_pure] at h
    exact ⟨⟨repo, rfl, h.1.symm⟩, h.2.symm⟩

theorem publishStage_ok {w : World} {appName imageTag : String} {events events1 : List Event}
    {ecrUri : String}
    (h : (publishStage w appName imageTag).run events = (.ok ecrUri, events1)) :
    ∃ (repositoryUri authData : String) (ensure : List Event),
      ecrUri = repositoryUri ++ ":latest" ∧
      (ensure = [⟨.describeRepositories [appName], none⟩] ∨
        ∃ e, e.name = "RepositoryNotFoundException" ∧
          ensure = [⟨.describeRepositories [appName], some e⟩,
            ⟨.createRepository appName, none⟩]) ∧
      events1 = events ++ ensure ++
        [⟨.getAuthorizationToken, none⟩,
          ⟨.execSync (loginCommand (jsSplit authData ':')[0]? (jsSplit authData ':')[1]?
            (jsSplit repositoryUri '/')[0]?) none, none⟩,
          ⟨.execSync ("docker tag " ++ imageTag ++ " " ++ (repositoryUri ++ ":latest")) none, none⟩,
          ⟨.execSync ("docker push " ++ (repositoryUri ++ ":latest")) none, none⟩] := by
  unfold publishStage at h
  obtain ⟨ecrRepo, e1, h1, h⟩ := Async.run_bind_ok_inv h
  obtain ⟨repositoryUri, e2, h2, h⟩ := Async.run_bind_ok_inv h
  obtain ⟨authData, e3, h3, h⟩ := Async.run_bind_ok_inv h
  obtain ⟨_, e4, h4, h⟩ := Async.run_bind_ok_inv h
  obtain ⟨_, e5, h5, h⟩ := Async.run_bind_ok_inv h
  obtain ⟨_, e6, h6, h⟩ := Async.run_bind_ok_inv h
  rw [Async.run_pure] at h
  simp only [Prod.mk.injEq, Except.ok.injEq] at h
  obtain ⟨huri, hev⟩ := h
  have he2 := (repositoryUriOf_ok h2).2
  unfold getECRAuthToken at h3
  have he3 := (Async.run_perform_ok_inv h3).2
  have he4 := (Async.run_perform_ok_inv h4).2
  have he5 := (Async.run_perform_ok_inv h5).2
  have he6 := (Async.run_perform_ok_inv h6).2
  subst hev he6 he5 he4 he3 he2
  rcases getOrCreateECRRepo_ok h1 with hens | ⟨e, hn, hens⟩
  · exact ⟨repositoryUri, authData, _, huri.symm, Or.inl rfl, by rw [hens]; simp⟩
  · exact ⟨repositoryUri, authData, _, huri.symm, Or.inr ⟨e, hn, rfl⟩, by rw [hens]; simp⟩

theorem rolloutStage_ok {w : World} {env : Env} {appName ecrUri : String}
    {events events1 : List Event} {u : Unit}
    (h : (rolloutStage w env appName ecrUri).run events = (.ok u, events1)) :
    ∃ (arn : String) (rollout : List Event),
      (rollout =
          [⟨.updateService
              { cluster := orDefault env.ECS_CLUSTER "default", service := appName,
                taskDefinition := arn }, none⟩] ∨
        ∃ e input, e.name = "ServiceNotFoundException" ∧
          rollout =
            [⟨.updateService
                { cluster := orDefault env.ECS_CLUSTER "default", service := appName,
                  taskDefinition := arn }, some e⟩,
              ⟨.createService input, none⟩]) ∧
      events1 = events ++
        ⟨.registerTaskDefinition (taskDefinitionInput env appName ecrUri), none⟩ :: rollout := by
  unfold rolloutStage at h
  rw [updateECSService_run] at h
  simp only at h
  cases hreg : w.registerTaskDefinition (events.map Event.call)
      (taskDefinitionInput env appName ecrUri) with
  | error e => rw [hreg] at h; simp at h
  | ok arn =>
    rw [hreg] at h
    simp only at h
    cases hupd : w.updateService
        (events.map Event.call ++
          [.registerTaskDefinition (taskDefinitionInput env appName ecrUri)])
        { cluster := orDefault env.ECS_CLUSTER "default", service := appName,
          taskDefinition := arn } with
    | ok u1 =>
      rw [hupd] at h
      simp at h
      exact ⟨arn, _, Or.inl rfl, h.symm⟩
    | error e =>
      rw [hupd] at h
      by_cases hn : e.name = "ServiceNotFoundException"
      · simp only [hn, if_true] at h
        cases hs : env.ECS_SUBNETS with
        | none => rw [hs] at h; simp at h
        | some subnets =>
          cases hg : env.ECS_SECURITY_GROUPS with
          | none => rw [hs, hg] at h; simp at h
          | some groups =>
            rw [hs, hg] at h
            simp only at h
            cases hc : w.createService
                (events.map Event.call ++
                  [.registerTaskDefinition (taskDefinitionInput env appName ecrUri),
                    .updateService
                      { cluster := orDefault env.ECS_CLUSTER "default", service := appName,
                        taskDefinition := arn }])
                { cluster := orDefault env.ECS_CLUSTER "default", serviceName := appName,
                  taskDefinition := arn, desiredCount := 1, launchType := "FARGATE",
                  subnets := jsSplit subnets ',', securityGroups := jsSplit groups ',',
                  assignPublicIp := "ENABLED" } with
            | ok u1 =>
              rw [hc] at h
              simp at h
              exact ⟨arn, _, Or.inr ⟨e, _, hn, rfl⟩, h.symm⟩
            | error e2 => rw [hc] at h; simp at h
      · simp [hn] at h

/-! ## Success -/

/-- C4: `deployApplication` resolves with `{success: true, message:
"Deployment successful"}` exactly when the four steps fetch, build, publish and
rollout, run one after the other, each end without error; and whenever it
resolves, the calls made are, in this order and each once: mkdir, clone,
checkout; docker build of `appName:deploymentId`; repository lookup (and
creation when the lookup reports that the repository is missing), auth token,
docker login, docker tag, docker push; register task definition, update
service (and create service when the update reports that the service is
missing). -/
theorem deployApplication_success_iff_stages (w : World) (env : Env)
    (dirname deploymentId repoUrl branch appName : String) (events : List Event) :
    ((deployApplication w env dirname deploymentId repoUrl branch appName).run [] =
        (.ok { success := true, message := "Deployment successful" }, events) ↔
      ∃ (ev1 ev2 : List Event) (ecrUri : String) (ev3 : List Event),
        (fetchStage w repoUrl branch (workDir dirname deploymentId)).run [] = (.ok (), ev1) ∧
        (buildStage w (imageTag appName deploymentId) (workDir dirname deploymentId)).run ev1 =
          (.ok (), ev2) ∧
        (publishStage w appName (imageTag appName deploymentId)).run ev2 = (.ok ecrUri, ev3) ∧
        (rolloutStage w env appName ecrUri).run ev3 = (.ok (), events)) ∧
    (∀ r, (deployApplication w env dirname deploymentId repoUrl branch appName).run [] =
        (.ok r, events) →
      r = { success := true, message := "Deployment successful" } ∧
      ∃ (repositoryUri authData arn : String) (ensure rollout : List Event),
        (ensure = [⟨.describeRepositories [appName], none⟩] ∨
          ∃ e, e.name = "RepositoryNotFoundException" ∧
            ensure = [⟨.describeRepositories [appName], some e⟩,
              ⟨.createRepository appName, none⟩]) ∧
        (rollout =
            [⟨.updateService
                { cluster := orDefault env.ECS_CLUSTER "default", service := appName,
                  taskDefinition := arn }, none⟩] ∨
          ∃ e input, e.name = "ServiceNotFoundException" ∧
            rollout =
              [⟨.updateService
                  { cluster := orDefault env.ECS_CLUSTER "default", service := appName,
                    taskDefinition := arn }, some e⟩,
                ⟨.createService input, none⟩]) ∧
        events =
          [⟨.mkdirSync (workDir dirname deploymentId), none⟩,
            ⟨.gitClone repoUrl (workDir dirname deploymentId), none⟩,
            ⟨.gitCheckout (workDir dirname deploymentId) branch, none⟩,
            ⟨.execSync ("docker build -t " ++ imageTag appName deploymentId ++ " .")
              (some (workDir dirname deploymentId)), none⟩] ++
          ensure ++
          [⟨.getAuthorizationToken, none⟩,
            ⟨.execSync (loginCommand (jsSplit authData ':')[0]? (jsSplit authData ':')[1]?
              (jsSplit repositoryUri '/')[0]?) none, none⟩,
            ⟨.execSync ("docker tag " ++ imageTag appName deploymentId ++ " " ++
              (repositoryUri ++ ":latest")) none, none⟩,
            ⟨.execSync ("docker push " ++ (repositoryUri ++ ":latest")) none, none⟩] ++
          ⟨.registerTaskDefinition
            (taskDefinitionInput env appName (repositoryUri ++ ":latest")), none⟩ :: rollout) := by
  rw [deployApplication_eq_stages, Async.run_rethrow]
  refine ⟨⟨?_, ?_⟩, ?_⟩
  · intro h
    obtain ⟨_, ev1, h1, h⟩ := Async.run_bind_ok_inv h
    obtain ⟨_, ev2, h2, h⟩ := Async.run_bind_ok_inv h
    obtain ⟨ecrUri, ev3, h3, h⟩ := Async.run_bind_ok_inv h
    obtain ⟨_, ev4, h4, h⟩ := Async.run_bind_ok_inv h
    rw [Async.run_pure] at h
    simp only [Prod.mk.injEq] at h
    rw [← h.2]
    exact ⟨ev1, ev2, ecrUri, ev3, h1, h2, h3, h4⟩
  · rintro ⟨ev1, ev2, ecrUri, ev3, h1, h2, h3, h4⟩
    rw [Async.run_bind_ok h1, Async.run_bind_ok h2, Async.run_bind_ok h3, Async.run_bind_ok h4,
      Async.run_pure]
  · intro r h
    obtain ⟨_, ev1, h1, h⟩ := Async.run_bind_ok_inv h
    obtain ⟨_, ev2, h2, h⟩ := Async.run_bind_ok_inv h
    obtain ⟨ecrUri, ev3, h3, h⟩ := Async.run_bind_ok_inv h
    obtain ⟨_, ev4, h4, h⟩ := Async.run_bind_ok_inv h
    rw [Async.run_pure] at h
    simp only [Prod.mk.injEq, Except.ok.injEq] at h
    obtain ⟨hr, hev⟩ := h
    subst hev
    obtain ⟨repositoryUri, authData, ensure, huri, hensure, hpub⟩ := publishStage_ok h3
    obtain ⟨arn, rollout, hrollout, hroll⟩ := rolloutStage_ok h4
    refine ⟨hr.symm, repositoryUri, authData, arn, ensure, rollout, hensure, hrollout, ?_⟩
    rw [hroll, hpub, buildStage_ok h2, fetchStage_ok h1, huri]
    simp

theorem deployApplication_success_iff_stages_witness :
    ∃ (ev1 ev2 : List Event) (ecrUri : String) (ev3 : List Event),
      (fetchStage calmWorld "https://example/repo.git" "main"
        (workDir "/srv/app" "svc1-42")).run [] = (.ok (), ev1) ∧
      (buildStage calmWorld (imageTag "svc1" "svc1-42") (workDir "/srv/app" "svc1-42")).run ev1 =
        (.ok (), ev2) ∧
      (publishStage calmWorld "svc1" (imageTag "svc1" "svc1-42")).run ev2 = (.ok ecrUri, ev3) ∧
      (rolloutStage calmWorld fleetEnv "svc1" ecrUri).run ev3 =
        (.ok (),
          [⟨.mkdirSync "/srv/app/deployments/svc1-42", none⟩,
            ⟨.gitClone "https://example/repo.git" "/srv/app/deployments/svc1-42", none⟩,
            ⟨.gitCheckout "/srv/app/deployments/svc1-42" "main", none⟩,
            ⟨.execSync "docker build -t svc1:svc1-42 ." (some "/srv/app/deployments/svc1-42"),
              none⟩,
            ⟨.describeRepositories ["svc1"], none⟩,
            ⟨.getAuthorizationToken, none⟩,
            ⟨.execSync "docker login -u AWS -p secret 123.dkr.ecr.aws" none, none⟩,
            ⟨.execSync "docker tag svc1:svc1-42 123.dkr.ecr.aws/svc1:latest" none, none⟩,
            ⟨.execSync "docker push 123.dkr.ecr.aws/svc1:latest" none, none⟩,
            ⟨.registerTaskDefinition
              (taskDefinitionInput fleetEnv "svc1" "123.dkr.ecr.aws/svc1:latest"), none⟩,
            ⟨.updateService
              { cluster := "prod", service := "svc1", taskDefinition := "arn:task/svc1:7" },
              none⟩]) :=
  (deployApplication_success_iff_stages calmWorld fleetEnv "/srv/app" "svc1-42"
    "https://example/repo.git" "main" "svc1" _).1.mp rfl

/-! ## The registry token -/

theorem deployApplication_eq_cut (w : World) (env : Env)
    (dirname deploymentId repoUrl branch appName : String) :
    deployApplication w env dirname deploymentId repoUrl branch appName =
      tryCatch
        (do
          let repositoryUri ← beforeToken w dirname deploymentId repoUrl branch appName
          let authData ← Async.perform .getAuthorizationToken w.getAuthorizationToken
          let login := loginCommand (jsSplit authData ':')[0]? (jsSplit authData ':')[1]?
            (jsSplit repositoryUri '/')[0]?
          Async.perform (.execSync login none) (fun calls => w.execSync calls login none)
          afterLogin w env appName (imageTag appName deploymentId) repositoryUri)
        (fun error => throw error) := by
  simp only [deployApplication, beforeToken, afterLogin, fetchStage, buildStage, getECRAuthToken,
    Async.bind_assoc, Async.pure_bind]

theorem Orderly.of_beforeToken (w : World) (dirname deploymentId repoUrl branch appName : String) :
    Orderly 0 6 (beforeToken w dirname deploymentId repoUrl branch appName) := by
  unfold beforeToken fetchStage buildStage
  simp only [Async.bind_assoc]
  refine Orderly.bind_run (m := 1) (Orderly.perform_run _ (by simp [Call.step]) (by simp [Call.step]))
    (fun _ => ?_) (by omega) (by omega)
  refine Orderly.bind_run (m := 2) (Orderly.perform_run _ (by simp [Call.step]) (by simp [Call.step]))
    (fun _ => ?_) (by omega) (by omega)
  refine Orderly.bind_run (m := 3) (Orderly.perform_run _ (by simp [Call.step]) (by simp [Call.step]))
    (fun _ => ?_) (by omega) (by omega)
  refine Orderly.bind_run (m := 4)
    (Orderly.perform_run _ (by simp [String.append_assoc, step_build])
      (by simp [String.append_assoc, step_build]))
    (fun _ => ?_) (by omega) (by omega)
  exact Orderly.bind_run (m := 6) (Orderly.of_getOrCreateECRRepo w appName)
    (fun ecrRepo => Orderly.of_repositoryUriOf 6 6 ecrRepo) (by omega) (by omega)

/-- In a list whose places increase strictly, an element is found at one
position only. -/
theorem cut_sorted {f : Event → Nat} :
    ∀ {a a1 : List Event} {x x1 : Event} {b b1 : List Event},
      ((a ++ x :: b).map f).Pairwise (· < ·) → a ++ x :: b = a1 ++ x1 :: b1 → f x = f x1 →
      a = a1 ∧ x = x1 ∧ b = b1 := by
  intro a
  induction a with
  | nil =>
    intro a1 x x1 b b1 hp h hf
    cases a1 with
    | nil => simpa using h
    | cons y a2 =>
      simp only [List.nil_append, List.cons_append, List.cons.injEq] at h
      obtain ⟨hxy, hb⟩ := h
      simp only [List.nil_append, List.map_cons, List.pairwise_cons] at hp
      have := hp.1 (f x1) (List.mem_map.mpr ⟨x1, by rw [hb]; simp, rfl⟩)
      omega
  | cons c a ih =>
    intro a1 x x1 b b1 hp h hf
    simp only [List.cons_append, List.map_cons, List.pairwise_cons] at hp
    cases a1 with
    | nil =>
      simp only [List.nil_append, List.cons_append, List.cons.injEq] at h
      obtain ⟨hc, _⟩ := h
      have := hp.1 (f x) (List.mem_map.mpr ⟨x, by simp, rfl⟩)
      rw [hc] at this
      omega
    | cons d a2 =>
      simp only [List.cons_append, List.cons.injEq] at h
      obtain ⟨h1, h2, h3⟩ := ih hp.2 h.2 hf
      exact ⟨by rw [h.1, h1], h2, h3⟩

theorem jsSplit_pair (u p : String) (hu : ':' ∉ u.data) (hp : ':' ∉ p.data) :
    jsSplit (u ++ ":" ++ p) ':' = [u, p] := by
  have hdata : (u ++ ":" ++ p).data = u.data ++ ':' :: p.data := by
    simp [String.data_append]
  rw [jsSplit, hdata, splitChars_append_sep, splitChars_of_not_mem _ _ hu,
    splitChars_of_not_mem _ _ hp]
  rfl

theorem jsSplit_single (s : String) (hs : ':' ∉ s.data) : jsSplit s ':' = [s] := by
  rw [jsSplit, splitChars_of_not_mem _ _ hs]
  rfl


theorem Async.run_perform_eq (c : Call) (respond : List Call → Except Err α)
    (events : List Event) :
    (Async.perform c respond).run events =
      (respond (events.map Event.call),
        events ++ [⟨c, failureOf (respond (events.map Event.call))⟩]) := by
  rw [Async.run_perform]
  cases respond (events.map Event.call) <;> rfl

/-- After `docker login`: `docker tag` is called, and `docker push` after it
when the tag command did not fail. -/
theorem afterLogin_events (w : World) (env : Env) (appName imageTag repositoryUri : String)
    (events : List Event) :
    ∃ rest : List Event,
      ((afterLogin w env appName imageTag repositoryUri).run events).2 =
        events ++
          ⟨.execSync ("docker tag " ++ imageTag ++ " " ++ (repositoryUri ++ ":latest")) none,
            failureOf (w.execSync (events.map Event.call)
              ("docker tag " ++ imageTag ++ " " ++ (repositoryUri ++ ":latest")) none)⟩ :: rest ∧
      (failureOf (w.execSync (events.map Event.call)
          ("docker tag " ++ imageTag ++ " " ++ (repositoryUri ++ ":latest")) none) ≠ none →
        rest = []) ∧
      (failureOf (w.execSync (events.map Event.call)
          ("docker tag " ++ imageTag ++ " " ++ (repositoryUri ++ ":latest")) none) = none →
        ∃ more : List Event,
          rest =
            ⟨.execSync ("docker push " ++ (repositoryUri ++ ":latest")) none,
              failureOf (w.execSync
                (events.map Event.call ++
                  [.execSync ("docker tag " ++ imageTag ++ " " ++ (repositoryUri ++ ":latest")) none])
                ("docker push " ++ (repositoryUri ++ ":latest")) none)⟩ :: more) := by
  unfold afterLogin
  simp only [Async.run_bind, Async.run_perform_eq]
  cases htag : w.execSync (events.map Event.call)
      ("docker tag " ++ imageTag ++ " " ++ (repositoryUri ++ ":latest")) none with
  | error e => exact ⟨[], by simp [failureOf], by simp, by simp [failureOf]⟩
  | ok u =>
    simp only [failureOf, List.map_append, List.map_cons, List.map_nil]
    cases hpush : w.execSync
        (events.map Event.call ++
          [.execSync ("docker tag " ++ imageTag ++ " " ++ (repositoryUri ++ ":latest")) none])
        ("docker push " ++ (repositoryUri ++ ":latest")) none with
    | error e => exact ⟨_, by simp, by simp, fun _ => ⟨[], rfl⟩⟩
    | ok u2 =>
      simp only
      obtain ⟨more, hmore, _⟩ :=
        Orderly.bind_run (m := 13) (Orderly.of_updateECSService w env appName (repositoryUri ++ ":latest"))
          (fun _ => Orderly.pure_run 13 13
            ({ success := true, message := "Deployment successful" } : DeployResult))
          (by omega) (by omega)
          (events ++
            [⟨.execSync ("docker tag " ++ imageTag ++ " " ++ (repositoryUri ++ ":latest")) none, none⟩] ++
            [⟨.execSync ("docker push " ++ (repositoryUri ++ ":latest")) none, none⟩])
      refine ⟨_ :: more, ?_, by simp, fun _ => ⟨more, rfl⟩⟩
      simp only [Async.run_bind] at hmore
      rw [hmore]
      simp

/-- C10 (amended): the program does not check the form of the registry token.
In every run in which the registry returns an authorization token, whatever its
decoded text, the next call is `docker login` with, as username, the text
before the first colon and, as password, the text between the first and the
second colon (the word `undefined` when the text has no colon); the run then
goes on to `docker tag` and to `docker push`, unless the command before fails,
which ends the run. For a decoded text `username:password` in which neither
part contains a colon, `docker login` is invoked with exactly that username and
that password. -/
theorem deployApplication_login_from_token (w : World) (env : Env)
    (dirname deploymentId repoUrl branch appName : String)
    (before after : List Event) (authData : String)
    (hrun : ((deployApplication w env dirname deploymentId repoUrl branch appName).run []).2 =
      before ++ ⟨.getAuthorizationToken, none⟩ :: after)
    (htoken : w.getAuthorizationToken (before.map Event.call) = .ok authData) :
    ∃ (repositoryUri login tag push : String) (rest : List Event),
      login = loginCommand (jsSplit authData ':')[0]? (jsSplit authData ':')[1]?
        (jsSplit repositoryUri '/')[0]? ∧
      tag = "docker tag " ++ imageTag appName deploymentId ++ " " ++ (repositoryUri ++ ":latest") ∧
      push = "docker push " ++ (repositoryUri ++ ":latest") ∧
      after =
        ⟨.execSync login none,
          failureOf (w.execSync (before.map Event.call ++ [.getAuthorizationToken]) login none)⟩ ::
          rest ∧
      (':' ∉ authData.data →
        login = "docker login -u " ++ authData ++ " -p undefined " ++
          templ (jsSplit repositoryUri '/')[0]?) ∧
      (∀ username password : String, ':' ∉ username.data → ':' ∉ password.data →
        authData = username ++ ":" ++ password →
        login = "docker login -u " ++ username ++ " -p " ++ password ++ " " ++
          templ (jsSplit repositoryUri '/')[0]?) ∧
      (failureOf (w.execSync (before.map Event.call ++ [.getAuthorizationToken]) login none)
          ≠ none → rest = []) ∧
      (failureOf (w.execSync (before.map Event.call ++ [.getAuthorizationToken]) login none)
          = none →
        ∃ rest2 : List Event,
          rest =
            ⟨.execSync tag none,
              failureOf (w.execSync
                (before.map Event.call ++ [.getAuthorizationToken, .execSync login none])
                tag none)⟩ :: rest2 ∧
          (failureOf (w.execSync
              (before.map Event.call ++ [.getAuthorizationToken, .execSync login none])
              tag none) ≠ none → rest2 = []) ∧
          (failureOf (w.execSync
              (before.map Event.call ++ [.getAuthorizationToken, .execSync login none])
              tag none) = none →
            ∃ rest3 : List Event,
              rest2 =
                ⟨.execSync push none,
                  failureOf (w.execSync
                    (before.map Event.call ++
                      [.getAuthorizationToken, .execSync login none, .execSync tag none])
                    push none)⟩ :: rest3)) := by
  have hsorted : ((before ++ ⟨.getAuthorizationToken, none⟩ :: after).map
      fun ev => ev.call.step).Pairwise (· < ·) := by
    obtain ⟨new, h1, hp, _⟩ :=
      Orderly.of_deployApplication w env dirname deploymentId repoUrl branch appName []
    rw [List.nil_append] at h1
    rw [← hrun, h1]
    exact hp
  rw [deployApplication_eq_cut, Async.run_rethrow] at hrun
  obtain ⟨new, hnew, _, hrange, _, _⟩ :=
    Orderly.of_beforeToken w dirname deploymentId repoUrl branch appName []
  rw [List.nil_append] at hnew
  rcases hpre : (beforeToken w dirname deploymentId repoUrl branch appName).run [] with ⟨r, ev⟩
  rw [hpre] at hnew
  simp only at hnew
  subst hnew
  cases r with
  | error e =>
    rw [Async.run_bind_error hpre] at hrun
    simp only at hrun
    have hmem : (⟨.getAuthorizationToken, none⟩ : Event) ∈ ev := by rw [hrun]; simp
    have := (hrange _ hmem).2
    simp [Call.step] at this
  | ok repositoryUri =>
    rw [Async.run_bind_ok hpre] at hrun
    cases hauth : w.getAuthorizationToken (ev.map Event.call) with
    | error e =>
      rw [Async.run_bind, Async.run_perform_eq, hauth] at hrun
      simp only [failureOf] at hrun
      rw [← hrun] at hsorted
      have := (cut_sorted hsorted hrun (by simp [Call.step])).2.1
      simp at this
    | ok token =>
      rw [Async.run_bind, Async.run_perform_eq, hauth] at hrun
      simp only [failureOf] at hrun
      rw [Async.run_bind, Async.run_perform_eq] at hrun
      simp only [List.map_append, List.map_cons, List.map_nil] at hrun
      have hcut : ∀ tail : List Event,
          ((ev ++ [⟨.getAuthorizationToken, none⟩]) ++ tail =
            before ++ ⟨.getAuthorizationToken, none⟩ :: after) →
          before = ev ∧ after = tail := by
        intro tail htail
        rw [List.append_assoc, List.singleton_append] at htail
        rw [← htail] at hsorted
        obtain ⟨hb, _, ha⟩ := cut_sorted hsorted htail rfl
        exact ⟨hb.symm, ha.symm⟩
      cases hlogin : w.execSync (ev.map Event.call ++ [.getAuthorizationToken])
          (loginCommand (jsSplit token ':')[0]? (jsSplit token ':')[1]?
            (jsSplit repositoryUri '/')[0]?) none with
      | error e =>
        rw [hlogin] at hrun
        simp only [failureOf] at hrun
        obtain ⟨hb, ha⟩ := hcut _ hrun
        subst hb
        rw [htoken] at hauth
        simp only [Except.ok.injEq] at hauth
        subst hauth
        refine ⟨repositoryUri, _, _, _, [], rfl, rfl, rfl, ?_, ?_, ?_, ?_, ?_⟩
        · rw [ha, hlogin]; rfl
        · intro hs
          rw [jsSplit_single _ hs]
          simp [loginCommand, templ, String.append_assoc]
        · intro username password hu hp hdata
          rw [hdata, jsSplit_pair _ _ hu hp]
          simp [loginCommand, templ]
        · intro _; rfl
        · intro hnone
          rw [hlogin] at hnone
          simp [failureOf] at hnone
      | ok u =>
        rw [hlogin] at hrun
        simp only [failureOf] at hrun
        obtain ⟨rest2, hrest2, hstop, hgo⟩ := afterLogin_events w env appName
          (imageTag appName deploymentId) repositoryUri
          (ev ++ [⟨.getAuthorizationToken, none⟩] ++
            [⟨.execSync (loginCommand (jsSplit token ':')[0]? (jsSplit token ':')[1]?
              (jsSplit repositoryUri '/')[0]?) none, none⟩])
        rw [hrest2] at hrun
        simp only [List.map_append, List.map_cons, List.map_nil, List.append_assoc,
          List.singleton_append, List.cons_append, List.nil_append] at hrun hstop hgo
        have hrun2 := hcut _ (by simpa [List.append_assoc] using hrun)
        obtain ⟨hb, ha⟩ := hrun2
        subst hb
        rw [htoken] at hauth
        simp only [Except.ok.injEq] at hauth
        subst hauth
        refine ⟨repositoryUri, _, _, _,
          ⟨.execSync ("docker tag " ++ imageTag appName deploymentId ++ " " ++
              (repositoryUri ++ ":latest")) none,
            failureOf (w.execSync
              (before.map Event.call ++
                [.getAuthorizationToken,
                  .execSync (loginCommand (jsSplit authData ':')[0]? (jsSplit authData ':')[1]?
                    (jsSplit repositoryUri '/')[0]?) none])
              ("docker tag " ++ imageTag appName deploymentId ++ " " ++
                (repositoryUri ++ ":latest")) none)⟩ :: rest2,
          rfl, rfl, rfl, ?_, ?_, ?_, ?_, ?_⟩
        · rw [ha, hlogin]; rfl
        · intro hs
          rw [jsSplit_single _ hs]
          simp [loginCommand, templ, String.append_assoc]
        · intro username password hu hp hdata
          rw [hdata, jsSplit_pair _ _ hu hp]
          simp [loginCommand, templ]
        · intro hne
          rw [hlogin] at hne
          simp [failureOf] at hne
        · intro _
          exact ⟨rest2, rfl, hstop, hgo⟩

theorem deployApplication_login_from_token_witness :
    ∃ (repositoryUri login tag push : String) (rest : List Event),
      login = loginCommand (jsSplit "AWS:secret" ':')[0]? (jsSplit "AWS:secret" ':')[1]?
        (jsSplit repositoryUri '/')[0]? ∧
      tag = "docker tag " ++ imageTag "svc1" "svc1-42" ++ " " ++ (repositoryUri ++ ":latest") ∧
      push = "docker push " ++ (repositoryUri ++ ":latest") ∧
      ([⟨.execSync "docker login -u AWS -p secret 123.dkr.ecr.aws" none, none⟩,
          ⟨.execSync "docker tag svc1:svc1-42 123.dkr.ecr.aws/svc1:latest" none, none⟩,
          ⟨.execSync "docker push 123.dkr.ecr.aws/svc1:latest" none, none⟩,
          ⟨.registerTaskDefinition
            (taskDefinitionInput bareEnv "svc1" "123.dkr.ecr.aws/svc1:latest"), none⟩,
          ⟨.updateService
            { cluster := "default", service := "svc1", taskDefinition := "arn:task/svc1:7" },
            none⟩] : List Event) =
        ⟨.execSync login none,
          failureOf (calmWorld.execSync
            (([⟨.mkdirSync "/srv/app/deployments/svc1-42", none⟩,
              ⟨.gitClone "https://example/repo.git" "/srv/app/deployments/svc1-42", none⟩,
              ⟨.gitCheckout "/srv/app/deployments/svc1-42" "main", none⟩,
              ⟨.execSync "docker build -t svc1:svc1-42 ." (some "/srv/app/deployments/svc1-42"),
                none⟩,
              ⟨.describeRepositories ["svc1"], none⟩] : List Event).map Event.call ++
              [.getAuthorizationToken]) login none)⟩ :: rest ∧
      login = "docker login -u " ++ "AWS" ++ " -p " ++ "secret" ++ " " ++
        templ (jsSplit repositoryUri '/')[0]? :=
  let ⟨repositoryUri, login, tag, push, rest, h1, h2, h3, h4, _, h6, _⟩ :=
    deployApplication_login_from_token calmWorld bareEnv "/srv/app" "svc1-42"
      "https://example/repo.git" "main" "svc1"
      [⟨.mkdirSync "/srv/app/deployments/svc1-42", none⟩,
        ⟨.gitClone "https://example/repo.git" "/srv/app/deployments/svc1-42", none⟩,
        ⟨.gitCheckout "/srv/app/deployments/svc1-42" "main", none⟩,
        ⟨.execSync "docker build -t svc1:svc1-42 ." (some "/srv/app/deployments/svc1-42"), none⟩,
        ⟨.describeRepositories ["svc1"], none⟩]
      [⟨.execSync "docker login -u AWS -p secret 123.dkr.ecr.aws" none, none⟩,
        ⟨.execSync "docker tag svc1:svc1-42 123.dkr.ecr.aws/svc1:latest" none, none⟩,
        ⟨.execSync "docker push 123.dkr.ecr.aws/svc1:latest" none, none⟩,
        ⟨.registerTaskDefinition
          (taskDefinitionInput bareEnv "svc1" "123.dkr.ecr.aws/svc1:latest"), none⟩,
        ⟨.updateService
          { cluster := "default", service := "svc1", taskDefinition := "arn:task/svc1:7" },
          none⟩]
      "AWS:secret" rfl rfl
  ⟨repositoryUri, login, tag, push, rest, h1, h2, h3, h4,
    h6 "AWS" "secret" (by decide) (by decide) rfl⟩

/-- Against C10 as stated: the decoded token `nocolon` has no colon, yet the
run does not fail at the authenticate step: `docker login`, `docker tag` and
`docker push` are invoked and the run resolves. -/
theorem deployApplication_accepts_token_without_colon :
    ':' ∉ "nocolon".data ∧
    (deployApplication oddTokenWorld bareEnv "/srv/app" "svc1-42" "https://example/repo.git"
        "main" "svc1").run [] =
      (.ok { success := true, message := "Deployment successful" },
        [⟨.mkdirSync "/srv/app/deployments/svc1-42", none⟩,
          ⟨.gitClone "https://example/repo.git" "/srv/app/deployments/svc1-42", none⟩,
          ⟨.gitCheckout "/srv/app/deployments/svc1-42" "main", none⟩,
          ⟨.execSync "docker build -t svc1:svc1-42 ." (some "/srv/app/deployments/svc1-42"),
            none⟩,
          ⟨.describeRepositories ["svc1"], none⟩,
          ⟨.getAuthorizationToken, none⟩,
          ⟨.execSync "docker login -u nocolon -p undefined 123.dkr.ecr.aws" none, none⟩,
          ⟨.execSync "docker tag svc1:svc1-42 123.dkr.ecr.aws/svc1:latest" none, none⟩,
          ⟨.execSync "docker push 123.dkr.ecr.aws/svc1:latest" none, none⟩,
          ⟨.registerTaskDefinition
            (taskDefinitionInput bareEnv "svc1" "123.dkr.ecr.aws/svc1:latest"), none⟩,
          ⟨.updateService
            { cluster := "default", service := "svc1", taskDefinition := "arn:task/svc1:7" },
            none⟩]) :=
  ⟨by decide, rfl⟩

end OneClickDeploy
